import Mathlib

/-!
# Geometry input marshalling (`HEMAX_Input_Geometry.cpp`)

A shallow embedding of `HEMAX_Input_Geometry`: the conversion of a host poly mesh into the
calls made on the target engine (`BuildPolyGeometryForInputNode`), and the lifecycle
operations around it (`BuildInputNode`, `RebuildAfterChange`, the destructor).

Conventions of the embedding.

* `float` values are rationals: arithmetic is exact.
* `int`, `DWORD` and `MtlID` values are naturals or integers without a width; the one place
  where the source converts an unsigned value to `int` (`SmoothingGroupArray`) wraps
  explicitly.
* An array obtained with `new T[n]` is a list of `n` cells, `none` for a cell that no store
  has reached. A loop that fills such an array is embedded as the list of its stores, in
  execution order, which is then applied to the fresh array.
* A read outside an array is undefined in the source. The embedding gives such a read a
  default value (`List.getD`); the index of each such read is kept where a statement
  depends on it.
* Every call made on the target engine or on the session is recorded, in order, as a
  `Call`; an operation of the source is embedded as the list of calls it makes.
-/

namespace HEMAX

/-! ## Host data model -/

/-- The host SDK's `Point3` (also `UVVert`). -/
structure Point3 where
  x : ℚ
  y : ℚ
  z : ℚ
deriving DecidableEq

/-- The host SDK's `MNFace`, restricted to the members the source reads. -/
structure MNFace where
  deg : Nat
  vtx : List Nat
  smGroup : Nat
  material : Nat
deriving DecidableEq

/-- The host SDK's `MNMapFace`: per-corner indices into the owning map's vertex array. -/
structure MNMapFace where
  deg : Nat
  tv : List Nat
deriving DecidableEq

/-- The host SDK's `MNMap`: `v` is the pointer to the vertex array (`none` when null) and
`numv` the separate count of vertices in use. -/
structure MNMap where
  numv : Nat
  v : Option (List Point3)
  f : List MNMapFace
deriving DecidableEq

/-- One face of the host SDK's `MNNormalSpec`. -/
structure MNNormalFace where
  deg : Nat
  normalID : List Nat
deriving DecidableEq

/-- The host SDK's `MNNormalSpec`: the explicit normals and the table's own face array. -/
structure MNNormalSpec where
  normals : List Point3
  faces : List MNNormalFace
deriving DecidableEq

/-- The host SDK's `MNMesh` as the marshaller reads it, after `CollapseDeadStructs` and
`buildNormals`: points, faces, mapping channels by channel number, the explicit-normal
table if any, and the per-vertex selection weights if the mesh supports them. -/
structure MNMesh where
  v : List Point3
  f : List MNFace
  M : Int → Option MNMap
  specifiedNormals : Option MNNormalSpec
  selectionWeights : Option (List ℚ)

/-- `MaxMesh.FNum()`. -/
def MNMesh.FNum (mesh : MNMesh) : Nat := mesh.f.length

/-- `MaxMesh.VNum()`. -/
def MNMesh.VNum (mesh : MNMesh) : Nat := mesh.v.length

/-- `F(i)->vtx[v]`. -/
def MNFace.vtxAt (F : MNFace) (v : Nat) : Nat := F.vtx.getD v 0

/-! ## Arrays and stores -/

/-- `new T[n]`: `n` cells, none of them written. -/
def alloc (α : Type) (n : Nat) : List (Option α) := List.replicate n none

/-- One store `buf[w.1] = w.2`. -/
def store {α : Type} (buf : List (Option α)) (w : Nat × α) : List (Option α) :=
  buf.set w.1 (some w.2)

/-- A sequence of stores applied in order. -/
def applyStores {α : Type} (buf : List (Option α)) (ws : List (Nat × α)) : List (Option α) :=
  ws.foldl store buf

/-- The values of the corner variable in every corner loop of the source,
`for (v = deg - 1; v >= 0; v--)`. -/
def cornersDown (deg : Nat) : List Nat := (List.range deg).reverse

/-- `MaxMesh.F(i)`. -/
def MNMesh.F (mesh : MNMesh) (i : Nat) : MNFace := mesh.f.getD i ⟨0, [], 0, 0⟩

/-- `Map->F(f)` of a mapping channel. -/
def MNMap.F (map : MNMap) (f : Nat) : MNMapFace := map.f.getD f ⟨0, []⟩

/-- `Map->F(f)->tv[v]`. -/
def MNMapFace.tvAt (F : MNMapFace) (v : Nat) : Nat := F.tv.getD v 0

/-- `MapData[i]` for `MapData = Map->v`. -/
def MNMap.MapData (map : MNMap) (i : Nat) : Point3 := (map.v.getD []).getD i ⟨0, 0, 0⟩

/-- The skeleton shared by the corner loops of the source:
`for (f = 0; f < FaceCount; f++) for (v = F(f)->deg - 1; v >= 0; v--) body`. -/
def forCorners {σ : Type} (mesh : MNMesh) (body : σ → Nat → Nat → σ) (init : σ) : σ :=
  (List.range mesh.FNum).foldl
    (fun st f => (cornersDown (mesh.F f).deg).foldl (fun st v => body st f v) st) init

/-- The corners `(f, v)` in the order the corner loops visit them. -/
def cornerOrder (mesh : MNMesh) : List (Nat × Nat) :=
  ((List.range mesh.FNum).map
    (fun f => (cornersDown (mesh.F f).deg).map (fun v => (f, v)))).flatten

/-! ## Topology and the vertex-index buffer (lines 136-189) -/

/-- Line 136. -/
def FaceCount (mesh : MNMesh) : Nat := mesh.FNum

/-- Line 137. -/
def VertCount (mesh : MNMesh) : Nat := mesh.VNum

/-- Lines 153-159: `VertIndexCount += F(i)->deg` over the faces, from `0`. -/
def VertIndexCount (mesh : MNMesh) : Nat :=
  (List.range (FaceCount mesh)).foldl (fun n i => n + (mesh.F i).deg) 0

/-- Lines 140, 155-159: `FaceCountArray[i] = F(i)->deg`. -/
def FaceCountArray (mesh : MNMesh) : List (Option Nat) :=
  applyStores (alloc Nat (FaceCount mesh))
    ((List.range (FaceCount mesh)).map (fun i => (i, (mesh.F i).deg)))

/-- Conversion of a `DWORD` to `int`. -/
def dwordToInt (d : Nat) : Int :=
  if d % 2 ^ 32 < 2 ^ 31 then ((d % 2 ^ 32 : Nat) : Int) else ((d % 2 ^ 32 : Nat) : Int) - 2 ^ 32

/-- Lines 141, 167: `SmoothingGroupArray[i] = F(i)->smGroup`. -/
def SmoothingGroupArray (mesh : MNMesh) : List (Option Int) :=
  applyStores (alloc Int (FaceCount mesh))
    ((List.range (FaceCount mesh)).map (fun i => (i, dwordToInt (mesh.F i).smGroup)))

/-- Lines 142, 168: `MaterialIDArray[i] = F(i)->material`. -/
def MaterialIDArray (mesh : MNMesh) : List (Option Int) :=
  applyStores (alloc Int (FaceCount mesh))
    ((List.range (FaceCount mesh)).map (fun i => (i, ((mesh.F i).material : Int))))

/-- Lines 184-187: the inner loop, `v` running down the corners while `c` counts up; each
step stores `vtx[v]` at `CurIndex + c`. -/
def indexCornerLoop (F : MNFace) (CurIndex : Nat) : List Nat → Nat → List (Nat × Nat)
  | [], _ => []
  | v :: vs, c => (CurIndex + c, F.vtxAt v) :: indexCornerLoop F CurIndex vs (c + 1)

/-- Lines 164-189: the face loop, with `CurIndex += F(i)->deg` after each face. -/
def indexFaceLoop (mesh : MNMesh) : List Nat → Nat → List (Nat × Nat)
  | [], _ => []
  | i :: rest, CurIndex =>
    indexCornerLoop (mesh.F i) CurIndex (cornersDown (mesh.F i).deg) 0
      ++ indexFaceLoop mesh rest (CurIndex + (mesh.F i).deg)

/-- The stores into `VertIndexArray`, in execution order. -/
def VertIndexStores (mesh : MNMesh) : List (Nat × Nat) :=
  indexFaceLoop mesh (List.range (FaceCount mesh)) 0

/-- Lines 161-189: `VertIndexArray = new int[VertIndexCount]`, then the stores. -/
def VertIndexArray (mesh : MNMesh) : List (Option Nat) :=
  applyStores (alloc Nat (VertIndexCount mesh)) (VertIndexStores mesh)

/-- The offset `o_i` of face `i` in a corner-order buffer: the degrees of the faces
before it, added up. -/
def cornerOffset (mesh : MNMesh) (i : Nat) : Nat :=
  ((mesh.f.take i).map (fun F => F.deg)).sum

/-- Lines 139, 144-151: the stores into `PointArray`. -/
def PointStores (ScaleConversion : ℚ) (mesh : MNMesh) : List (Nat × ℚ) :=
  ((List.range (VertCount mesh)).map (fun i =>
    [(i * 3, (mesh.v.getD i ⟨0, 0, 0⟩).x * ScaleConversion),
     (i * 3 + 1, (mesh.v.getD i ⟨0, 0, 0⟩).z * ScaleConversion),
     (i * 3 + 2, -(mesh.v.getD i ⟨0, 0, 0⟩).y * ScaleConversion)])).flatten

/-- Lines 139, 144-151: `PointArray = new float[VertCount * 3]`, then the stores. -/
def PointArray (ScaleConversion : ℚ) (mesh : MNMesh) : List (Option ℚ) :=
  applyStores (alloc ℚ (VertCount mesh * 3)) (PointStores ScaleConversion mesh)

/-! ## Names and constants declared outside the translated file -/

/-- The constants and attribute names the source takes from headers that are not part of
the translated file, and the unit scale returned by `GetMaxToHoudiniScale`. -/
structure Config where
  MAX_MESHMAPS : Nat
  HEMAX_MAPPING_CHANNEL_COLOR : Int
  HEMAX_MAPPING_CHANNEL_ALPHA : Int
  HEMAX_MAPPING_CHANNEL_ILLUMINATION : Int
  HEMAX_POSITION_ATTRIBUTE : String
  HEMAX_NORMAL_ATTRIBUTE : String
  HEMAX_UV_ATTRIBUTE : String
  HEMAX_SMOOTHING_GROUP_ATTRIBUTE : String
  HEMAX_MATERIAL_ID_ATTRIBUTE : String
  HEMAX_MATERIAL_PATH_ATTRIBUTE : String
  HEMAX_COLOR_ATTRIBUTE : String
  HEMAX_ALPHA_ATTRIBUTE : String
  HEMAX_ILLUMINATION_ATTRIBUTE : String
  HEMAX_SOFT_SELECTION_ATTRIBUTE : String
  HEMAX_TRANSLATE_ATTR : String
  HEMAX_ROTATE_ATTR : String
  HEMAX_SCALE_ATTR : String
  HEMAX_QUATERNION_ATTR : String
  HEMAX_MAX_RAW_TM_WORLD : String
  HEMAX_MAX_RAW_TM_LOCAL : String
  ScaleConversion : ℚ

/-- The host functions the normal reconstruction calls: `Normalize` on `Point3`, and
`MaxMesh.GetFaceNormal(i, true)` for the mesh at hand. -/
structure HostFns where
  Normalize : Point3 → Point3
  GetFaceNormal : Nat → Point3

/-- The host SDK's `Mtl`, restricted to what the source reads: its name and, per
sub-material slot, the name of the sub-material there (`none` for a slot whose
`GetSubMtl` is null). -/
structure Mtl where
  name : String
  subMtls : List (Option String)
deriving DecidableEq

/-- `MeshMat->NumSubMtls()`. -/
def Mtl.NumSubMtls (mat : Mtl) : Nat := mat.subMtls.length

/-- `MeshMat->GetSubMtl(m)`. -/
def Mtl.GetSubMtl (mat : Mtl) (m : Nat) : Option String := (mat.subMtls.getD m none)

/-- The values `HEMAX_Utilities` derives from a host node for the transform detail
attributes (lines 546-570). -/
structure NodeTransforms where
  position : List ℚ
  rotationEuler : List ℚ
  scale : List ℚ
  rotationQuaternion : List ℚ
  WorldSpaceTM : List ℚ
  LocalSpaceTM : List ℚ
deriving DecidableEq

/-- The host SDK's `INode`, restricted to what the source reads. -/
structure INode where
  mtl : Option Mtl
  transforms : NodeTransforms
  parentTransform : List ℚ
deriving DecidableEq

/-! ## Calls on the target engine and the session -/

/-- One call made by the translated file on its base class (`CreateInputNode`,
`AddNew...`, `Send...`, ...), on its node or on the session. The `HEMAX_AttributeInfo`
that links a `Send...` to its `AddNew...` is left out; a buffer argument is the whole
array the pointer designates. -/
inductive Call where
  | CreateInputNode (name : String)
  | MarshalNodeNameDetailAttribute
  | AddNewPart (faceCount vertIndexCount vertCount : Nat)
  | AddNewPointAttribute (count tupleSize : Nat) (name : String)
  | AddNewVertexAttribute (count tupleSize : Nat) (name : String)
  | AddNewPrimitiveIntAttribute (count tupleSize : Nat) (name : String)
  | AddNewPrimitiveStringAttribute (count tupleSize : Nat) (name : String)
  | AddNewDetailFloatAttribute (count tupleSize : Nat) (name : String)
  | SendPointAttributeData (points : List (Option ℚ)) (vertIndex : List (Option Nat))
      (faceCounts : List (Option Nat)) (faceCount vertIndexCount vertCount : Nat)
      (name : String)
  | SendIntAttributeData (name : String) (data : List (Option Int)) (count : Nat)
  | SendStringAttributeData (name : String) (data : List (Option String)) (count : Nat)
  | SendFloatAttributeData (name : String) (data : List (Option ℚ)) (count : Nat)
  | SetParentTransform (transform : List ℚ)
  | FinalizeInputGeometry
  | NodeDelete
  | SessionDeleteNode (parentId : Int)
  | LoggerAddEntry (msg : String)
deriving DecidableEq

/-- The name a call registers an attribute under, if it registers one. -/
def Call.registers : Call → Option String
  | .AddNewPointAttribute _ _ n => some n
  | .AddNewVertexAttribute _ _ n => some n
  | .AddNewPrimitiveIntAttribute _ _ n => some n
  | .AddNewPrimitiveStringAttribute _ _ n => some n
  | .AddNewDetailFloatAttribute _ _ n => some n
  | _ => none

/-- The name a call uploads attribute data under, if it uploads. -/
def Call.uploads : Call → Option String
  | .SendPointAttributeData _ _ _ _ _ _ n => some n
  | .SendIntAttributeData n _ _ => some n
  | .SendStringAttributeData n _ _ => some n
  | .SendFloatAttributeData n _ _ => some n
  | _ => none

/-! ## Material lookup (lines 98-132, 170-182, 202-211) -/

/-- `std::unordered_map::insert`: no effect when the key is present. -/
def mapInsert {β : Type} (m : List (Nat × β)) (k : Nat) (x : β) : List (Nat × β) :=
  if (m.lookup k).isSome then m else m ++ [(k, x)]

/-- The locals of lines 98-103 after the lookup of lines 105-132. A `const char*` is an
optional string, `none` for the null pointer. -/
structure MaterialLocals where
  SingleMaterial : Bool
  SingleMaterialNameData : List (Option String)
  SubMatNames : List (Nat × String)
  FaceMaterialNames : List (Option String)
deriving DecidableEq

/-- Lines 115-123: the loop over the sub-material slots. -/
def collectSubMatNames (MeshMat : Mtl) : List (Nat × String) :=
  (List.range MeshMat.NumSubMtls).foldl
    (fun names m =>
      match MeshMat.GetSubMtl m with
      | some SubMatName => mapInsert names m SubMatName
      | none => names)
    []

/-- Lines 98-132. -/
def lookUpMaterial (SourceNode : Option INode) (mesh : MNMesh) : MaterialLocals :=
  match SourceNode with
  | none => ⟨false, [], [], []⟩
  | some node =>
    match node.mtl with
    | none => ⟨false, [], [], []⟩
    | some MeshMat =>
      if MeshMat.NumSubMtls > 0 then
        ⟨false, [], collectSubMatNames MeshMat, List.replicate mesh.FNum none⟩
      else
        ⟨true, List.replicate mesh.FNum (some MeshMat.name), [], []⟩

/-- Lines 170-182: the part of the body of the face loop that writes `FaceMaterialNames`. -/
def faceMaterialStep (mesh : MNMesh) (loc : MaterialLocals)
    (FaceMaterialNames : List (Option String)) (i : Nat) : List (Option String) :=
  if !loc.SingleMaterial then
    match loc.SubMatNames.lookup (mesh.F i).material with
    | some MatName => FaceMaterialNames.set i (some MatName)
    | none =>
      if FaceMaterialNames.length > 0 then FaceMaterialNames.set i (some "")
      else FaceMaterialNames
  else FaceMaterialNames

/-- `FaceMaterialNames` after the face loop of lines 164-189. -/
def FaceMaterialNames (SourceNode : Option INode) (mesh : MNMesh) : List (Option String) :=
  (List.range (FaceCount mesh)).foldl
    (faceMaterialStep mesh (lookUpMaterial SourceNode mesh))
    (lookUpMaterial SourceNode mesh).FaceMaterialNames

/-- Lines 202-211: the material-path attribute. -/
def materialPathCalls (cfg : Config) (SourceNode : Option INode) (mesh : MNMesh) : List Call :=
  if (lookUpMaterial SourceNode mesh).SingleMaterial
      ∧ (lookUpMaterial SourceNode mesh).SingleMaterialNameData.length > 0 then
    [.AddNewPrimitiveStringAttribute (FaceCount mesh) 1 cfg.HEMAX_MATERIAL_PATH_ATTRIBUTE,
     .SendStringAttributeData cfg.HEMAX_MATERIAL_PATH_ATTRIBUTE
        (lookUpMaterial SourceNode mesh).SingleMaterialNameData (FaceCount mesh)]
  else if (FaceMaterialNames SourceNode mesh).length > 0 then
    [.AddNewPrimitiveStringAttribute (FaceCount mesh) 1 cfg.HEMAX_MATERIAL_PATH_ATTRIBUTE,
     .SendStringAttributeData cfg.HEMAX_MATERIAL_PATH_ATTRIBUTE
        (FaceMaterialNames SourceNode mesh) (FaceCount mesh)]
  else []

/-! ## Normals (lines 213-310) -/

/-- One object of the host SDK's `VertexNormal` class: the accumulated normal, the
smoothing bits it stands for, and whether anything has been accumulated. -/
structure VertexNormalNode where
  norm : Point3
  smooth : Nat
  init : Bool
deriving DecidableEq

/-- `Point3::operator+=`. -/
def Point3.add (a b : Point3) : Point3 := ⟨a.x + b.x, a.y + b.y, a.z + b.z⟩

/-- `new MaxSDK::VertexNormal()`: a chain of one object, nothing accumulated. A chain is
the object followed by the objects reached through `next`; the empty chain is the null
pointer. -/
def VertexNormal.fresh : List VertexNormalNode := [⟨⟨0, 0, 0⟩, 0, false⟩]

/-- `VertexNormal::AddNormal(n, s)` as the host SDK documents it: an object that is
initialised and shares no smoothing bit with `s` hands the normal on to `next`, creating it
when null; otherwise the normal is added to the object and the bits are merged. -/
def VertexNormal.AddNormal (n : Point3) (s : Nat) : List VertexNormalNode → List VertexNormalNode
  | [] => [⟨n, s, true⟩]
  | b :: rest =>
    if (s &&& b.smooth) = 0 ∧ b.init = true then b :: VertexNormal.AddNormal n s rest
    else ⟨b.norm.add n, b.smooth ||| s, true⟩ :: rest

/-- `VertexNormal::GetNormal(s)` as the host SDK documents it: the normal of the first
object of the chain that shares a bit with `s`, or of the last object. -/
def VertexNormal.GetNormal (s : Nat) : List VertexNormalNode → Point3
  | [] => ⟨0, 0, 0⟩
  | b :: rest =>
    if (b.smooth &&& s) ≠ 0 ∨ rest.isEmpty = true then b.norm
    else VertexNormal.GetNormal s rest

/-- Lines 263-271: `VNorm = VertexNormals[Vert]`, then `Index` steps along `next`, then
`VNorm->norm`. -/
def walkNorm (chain : List VertexNormalNode) (Index : Nat) : Point3 :=
  match (chain.drop Index).head? with
  | some b => b.norm
  | none => ⟨0, 0, 0⟩

/-- `++(Search->second)` for the entry of key `k`. -/
def mapIncr (m : List (Nat × Nat)) (k : Nat) : List (Nat × Nat) :=
  m.map (fun kv => if kv.1 = k then (kv.1, kv.2 + 1) else kv)

/-- Lines 227-233: `VertexNormals.SetCount(VertIndexCount)` and the allocation loop. -/
def freshVertexNormals (mesh : MNMesh) : List (List VertexNormalNode) :=
  List.replicate (VertIndexCount mesh) VertexNormal.fresh

/-- Lines 239-247: the body of the accumulation loop, on `(VertexNormals, NoSGTable)`. -/
def accumulateBody (host : HostFns) (mesh : MNMesh)
    (st : List (List VertexNormalNode) × List (Nat × Nat)) (i j : Nat) :
    List (List VertexNormalNode) × List (Nat × Nat) :=
  (st.1.set ((mesh.F i).vtxAt j)
      (VertexNormal.AddNormal (host.GetFaceNormal i) (mesh.F i).smGroup
        (st.1.getD ((mesh.F i).vtxAt j) [])),
   if (mesh.F i).smGroup = 0 then mapInsert st.2 ((mesh.F i).vtxAt j) 0 else st.2)

/-- Lines 235-248: the accumulation loop. -/
def accumulateNormals (host : HostFns) (mesh : MNMesh) :
    List (List VertexNormalNode) × List (Nat × Nat) :=
  forCorners mesh (accumulateBody host mesh) (freshVertexNormals mesh, [])

/-- Lines 252-283: the body of the read-back loop, on `(NoSGTable, NormalArray)`. -/
def readBackBody (host : HostFns) (mesh : MNMesh) (VertexNormals : List (List VertexNormalNode))
    (st : List (Nat × Nat) × List ℚ) (i j : Nat) : List (Nat × Nat) × List ℚ :=
  if (mesh.F i).smGroup = 0 then
    (mapIncr st.1 ((mesh.F i).vtxAt j),
     st.2 ++
      [(host.Normalize (walkNorm (VertexNormals.getD ((mesh.F i).vtxAt j) [])
          ((st.1.lookup ((mesh.F i).vtxAt j)).getD 0))).x,
       (host.Normalize (walkNorm (VertexNormals.getD ((mesh.F i).vtxAt j) [])
          ((st.1.lookup ((mesh.F i).vtxAt j)).getD 0))).z,
       -(host.Normalize (walkNorm (VertexNormals.getD ((mesh.F i).vtxAt j) [])
          ((st.1.lookup ((mesh.F i).vtxAt j)).getD 0))).y])
  else
    (st.1,
     st.2 ++
      [(host.Normalize (VertexNormal.GetNormal (mesh.F i).smGroup
          (VertexNormals.getD ((mesh.F i).vtxAt j) []))).x,
       (host.Normalize (VertexNormal.GetNormal (mesh.F i).smGroup
          (VertexNormals.getD ((mesh.F i).vtxAt j) []))).z,
       -(host.Normalize (VertexNormal.GetNormal (mesh.F i).smGroup
          (VertexNormals.getD ((mesh.F i).vtxAt j) []))).y])

/-- Lines 219-290: the branch that synthesises normals from smoothing groups. -/
def synthesisedNormals (host : HostFns) (mesh : MNMesh) : List ℚ :=
  (forCorners mesh (readBackBody host mesh (accumulateNormals host mesh).1)
    ((accumulateNormals host mesh).2, [])).2

/-- `SpecifiedNormals->GetNumNormals()`. -/
def MNNormalSpec.GetNumNormals (spec : MNNormalSpec) : Nat := spec.normals.length

/-- `SpecifiedNormals->GetNumFaces()`. -/
def MNNormalSpec.GetNumFaces (spec : MNNormalSpec) : Nat := spec.faces.length

/-- `SpecifiedNormals->Face(f)`. -/
def MNNormalSpec.Face (spec : MNNormalSpec) (f : Nat) : MNNormalFace :=
  spec.faces.getD f ⟨0, []⟩

/-- `SpecifiedNormals->GetNormal(f, v)`: the normal the table's face `f` names at its
corner `v`. -/
def MNNormalSpec.GetNormal (spec : MNNormalSpec) (f v : Nat) : Point3 :=
  spec.normals.getD ((spec.Face f).normalID.getD v 0) ⟨0, 0, 0⟩

/-- Lines 293-306: the branch that replays the explicit normal table. -/
def explicitNormals (host : HostFns) (spec : MNNormalSpec) : List ℚ :=
  (List.range spec.GetNumFaces).foldl
    (fun arr f =>
      (cornersDown (spec.Face f).deg).foldl
        (fun arr v =>
          arr ++ [(host.Normalize (spec.GetNormal f v)).x,
                  (host.Normalize (spec.GetNormal f v)).z,
                  -(host.Normalize (spec.GetNormal f v)).y])
        arr)
    []

/-- Lines 214-307: `NormalArray` once either branch has run. -/
def NormalArray (host : HostFns) (mesh : MNMesh) : List ℚ :=
  match mesh.specifiedNormals with
  | none => synthesisedNormals host mesh
  | some spec =>
    if spec.GetNumNormals = 0 then synthesisedNormals host mesh
    else explicitNormals host spec

/-- Lines 309-310. -/
def normalCalls (cfg : Config) (host : HostFns) (mesh : MNMesh) : List Call :=
  [.AddNewVertexAttribute (VertIndexCount mesh) 3 cfg.HEMAX_NORMAL_ATTRIBUTE,
   .SendFloatAttributeData cfg.HEMAX_NORMAL_ATTRIBUTE ((NormalArray host mesh).map some)
      (VertIndexCount mesh)]

/-! ## UV channels (lines 312-342) -/

/-- Lines 326-334: `UVArray` after the corner loop for one channel. -/
def UVArray (mesh : MNMesh) (UVMap : MNMap) : List ℚ :=
  forCorners mesh
    (fun arr f v =>
      arr ++ [(UVMap.MapData ((UVMap.F f).tvAt v)).x,
              (UVMap.MapData ((UVMap.F f).tvAt v)).y,
              (UVMap.MapData ((UVMap.F f).tvAt v)).z])
    []

/-- Line 336: the attribute name of channel `texMap`. -/
def UVAttrName (cfg : Config) (texMap : Nat) : String :=
  if texMap = 1 then cfg.HEMAX_UV_ATTRIBUTE else cfg.HEMAX_UV_ATTRIBUTE ++ toString texMap

/-- Lines 317-341: the body of the channel loop. -/
def uvChannelCalls (cfg : Config) (mesh : MNMesh) (texMap : Nat) : List Call :=
  match mesh.M (texMap : Int) with
  | none => []
  | some UVMap =>
    match UVMap.v with
    | none => []
    | some _ =>
      [.AddNewVertexAttribute (VertIndexCount mesh) 3 (UVAttrName cfg texMap),
       .SendFloatAttributeData (UVAttrName cfg texMap) ((UVArray mesh UVMap).map some)
          (VertIndexCount mesh)]

/-- The values of `texMap` in `for (texMap = 1; texMap < MAX_MESHMAPS; texMap++)`. -/
def texMaps (cfg : Config) : List Nat := List.range' 1 (cfg.MAX_MESHMAPS - 1)

/-- Lines 315-342. -/
def uvCalls (cfg : Config) (mesh : MNMesh) : List Call :=
  ((texMaps cfg).map (uvChannelCalls cfg mesh)).flatten

/-! ## Soft selection (lines 344-356, 534-540) -/

/-- Lines 345-356: `SoftSelectionArray`, null unless the mesh supports selection weights. -/
def SoftSelectionArray (mesh : MNMesh) : Option (List (Option ℚ)) :=
  match mesh.selectionWeights with
  | none => none
  | some Data =>
    some (applyStores (alloc ℚ (VertCount mesh))
      ((List.range (VertCount mesh)).map (fun i => (i, Data.getD i 0))))

/-! ## Color, alpha and illumination channels (lines 358-532) -/

/-- `HEMAX_AttributeOwner`, restricted to the values the source uses. -/
inductive HEMAX_AttributeOwner where
  | INVALID
  | VERTEX
  | POINT
deriving DecidableEq

/-- Lines 371-376: the stores of the point-rate color loop. -/
def CdPointStores (mesh : MNMesh) (ColorMap : MNMap) : List (Nat × ℚ) :=
  ((List.range (VertCount mesh)).map (fun c =>
    [(c * 3, (ColorMap.MapData c).x),
     (c * 3 + 1, (ColorMap.MapData c).y),
     (c * 3 + 2, (ColorMap.MapData c).z)])).flatten

/-- Lines 385-397: the stores of the corner-rate color loop; the state is
`CdVertIndex` and the stores so far. -/
def CdCornerStores (mesh : MNMesh) (ColorMap : MNMap) : List (Nat × ℚ) :=
  (forCorners mesh
    (fun (st : Nat × List (Nat × ℚ)) f v =>
      (st.1 + 3,
       st.2 ++ [(st.1, (ColorMap.MapData ((ColorMap.F f).tvAt v)).x),
                (st.1 + 1, (ColorMap.MapData ((ColorMap.F f).tvAt v)).y),
                (st.1 + 2, (ColorMap.MapData ((ColorMap.F f).tvAt v)).z)]))
    (0, [])).2

/-- Lines 358-399: `(CdArray, CdOwner)`. -/
def colorChannel (cfg : Config) (mesh : MNMesh) :
    Option (List (Option ℚ)) × HEMAX_AttributeOwner :=
  match mesh.M cfg.HEMAX_MAPPING_CHANNEL_COLOR with
  | none => (none, .INVALID)
  | some ColorMap =>
    if ColorMap.numv > 0 then
      if ColorMap.numv = VertCount mesh then
        (some (applyStores (alloc ℚ (VertCount mesh * 3)) (CdPointStores mesh ColorMap)),
         .POINT)
      else if ColorMap.numv ≤ VertIndexCount mesh then
        (some (applyStores (alloc ℚ (VertIndexCount mesh * 3)) (CdCornerStores mesh ColorMap)),
         .VERTEX)
      else (none, .INVALID)
    else (none, .INVALID)

/-- `CdArray` at line 518. -/
def CdArray (cfg : Config) (mesh : MNMesh) : Option (List (Option ℚ)) :=
  (colorChannel cfg mesh).1

/-- `CdOwner` at line 518. -/
def CdOwner (cfg : Config) (mesh : MNMesh) : HEMAX_AttributeOwner := (colorChannel cfg mesh).2

/-- Lines 416, 433: `ConvertedAlpha` of a channel vertex. -/
def ConvertedAlpha (p : Point3) : ℚ := (0.2126 * p.x) + (0.7152 * p.y) + (0.0722 * p.z)

/-- Lines 414-418: the stores of the point-rate alpha loop. -/
def AlphaPointStores (mesh : MNMesh) (AlphaMap : MNMap) : List (Nat × ℚ) :=
  (List.range (VertCount mesh)).map (fun c => (c, ConvertedAlpha (AlphaMap.MapData c)))

/-- Lines 427-439: the stores of the corner-rate alpha loop; the state is
`AlphaVertIndex` and the stores so far. -/
def AlphaCornerStores (mesh : MNMesh) (AlphaMap : MNMap) : List (Nat × ℚ) :=
  (forCorners mesh
    (fun (st : Nat × List (Nat × ℚ)) f v =>
      (st.1 + 1,
       st.2 ++ [(st.1, ConvertedAlpha (AlphaMap.MapData ((AlphaMap.F f).tvAt v)))]))
    (0, [])).2

/-- Lines 401-441: `(AlphaArray, AlphaOwner)`. -/
def alphaChannel (cfg : Config) (mesh : MNMesh) :
    Option (List (Option ℚ)) × HEMAX_AttributeOwner :=
  match mesh.M cfg.HEMAX_MAPPING_CHANNEL_ALPHA with
  | none => (none, .INVALID)
  | some AlphaMap =>
    if AlphaMap.numv > 0 then
      if AlphaMap.numv = VertCount mesh then
        (some (applyStores (alloc ℚ (VertCount mesh)) (AlphaPointStores mesh AlphaMap)),
         .POINT)
      else if AlphaMap.numv ≤ VertIndexCount mesh then
        (some (applyStores (alloc ℚ (VertIndexCount mesh)) (AlphaCornerStores mesh AlphaMap)),
         .VERTEX)
      else (none, .INVALID)
    else (none, .INVALID)

/-- `AlphaArray` at line 502. -/
def AlphaArray (cfg : Config) (mesh : MNMesh) : Option (List (Option ℚ)) :=
  (alphaChannel cfg mesh).1

/-- `AlphaOwner` at line 502. -/
def AlphaOwner (cfg : Config) (mesh : MNMesh) : HEMAX_AttributeOwner :=
  (alphaChannel cfg mesh).2

/-- Lines 456-461: the stores of the point-rate illumination loop. -/
def IlluminationPointStores (mesh : MNMesh) (IlluminationMap : MNMap) : List (Nat × ℚ) :=
  ((List.range (VertCount mesh)).map (fun c =>
    [(c * 3, (IlluminationMap.MapData c).x),
     (c * 3 + 1, (IlluminationMap.MapData c).y),
     (c * 3 + 2, (IlluminationMap.MapData c).z)])).flatten

/-- Lines 470-482: the stores of the corner-rate illumination loop; the state is
`CurrentIndex` and the stores so far. -/
def IlluminationCornerStores (mesh : MNMesh) (IlluminationMap : MNMap) : List (Nat × ℚ) :=
  (forCorners mesh
    (fun (st : Nat × List (Nat × ℚ)) f v =>
      (st.1 + 3,
       st.2 ++ [(st.1, (IlluminationMap.MapData ((IlluminationMap.F f).tvAt v)).x),
                (st.1 + 1, (IlluminationMap.MapData ((IlluminationMap.F f).tvAt v)).y),
                (st.1 + 2, (IlluminationMap.MapData ((IlluminationMap.F f).tvAt v)).z)]))
    (0, [])).2

/-- Lines 443-484: `(IlluminationArray, IlluminationOwner)`. -/
def illuminationChannel (cfg : Config) (mesh : MNMesh) :
    Option (List (Option ℚ)) × HEMAX_AttributeOwner :=
  match mesh.M cfg.HEMAX_MAPPING_CHANNEL_ILLUMINATION with
  | none => (none, .INVALID)
  | some IlluminationMap =>
    if IlluminationMap.numv > 0 then
      if IlluminationMap.numv = VertCount mesh then
        (some (applyStores (alloc ℚ (VertCount mesh * 3))
            (IlluminationPointStores mesh IlluminationMap)),
         .POINT)
      else if IlluminationMap.numv ≤ VertIndexCount mesh then
        (some (applyStores (alloc ℚ (VertIndexCount mesh * 3))
            (IlluminationCornerStores mesh IlluminationMap)),
         .VERTEX)
      else (none, .INVALID)
    else (none, .INVALID)

/-- `IlluminationArray` at line 486. -/
def IlluminationArray (cfg : Config) (mesh : MNMesh) : Option (List (Option ℚ)) :=
  (illuminationChannel cfg mesh).1

/-- `IlluminationOwner` at line 486. -/
def IlluminationOwner (cfg : Config) (mesh : MNMesh) : HEMAX_AttributeOwner :=
  (illuminationChannel cfg mesh).2

/-- Lines 486-500. -/
def illuminationCalls (cfg : Config) (mesh : MNMesh) : List Call :=
  match IlluminationArray cfg mesh with
  | none => []
  | some arr =>
    if IlluminationOwner cfg mesh = .VERTEX then
      [.AddNewVertexAttribute (VertIndexCount mesh) 3 cfg.HEMAX_ILLUMINATION_ATTRIBUTE,
       .SendFloatAttributeData cfg.HEMAX_ILLUMINATION_ATTRIBUTE arr (VertIndexCount mesh)]
    else if IlluminationOwner cfg mesh = .POINT then
      [.AddNewPointAttribute (VertCount mesh) 3 cfg.HEMAX_ILLUMINATION_ATTRIBUTE,
       .SendFloatAttributeData cfg.HEMAX_ILLUMINATION_ATTRIBUTE arr (VertCount mesh)]
    else []

/-- Lines 502-516. -/
def alphaCalls (cfg : Config) (mesh : MNMesh) : List Call :=
  match AlphaArray cfg mesh with
  | none => []
  | some arr =>
    if AlphaOwner cfg mesh = .VERTEX then
      [.AddNewVertexAttribute (VertIndexCount mesh) 1 cfg.HEMAX_ALPHA_ATTRIBUTE,
       .SendFloatAttributeData cfg.HEMAX_ALPHA_ATTRIBUTE arr (VertIndexCount mesh)]
    else if AlphaOwner cfg mesh = .POINT then
      [.AddNewPointAttribute (VertCount mesh) 1 cfg.HEMAX_ALPHA_ATTRIBUTE,
       .SendFloatAttributeData cfg.HEMAX_ALPHA_ATTRIBUTE arr (VertCount mesh)]
    else []

/-- Lines 518-532. -/
def cdCalls (cfg : Config) (mesh : MNMesh) : List Call :=
  match CdArray cfg mesh with
  | none => []
  | some arr =>
    if CdOwner cfg mesh = .VERTEX then
      [.AddNewVertexAttribute (VertIndexCount mesh) 3 cfg.HEMAX_COLOR_ATTRIBUTE,
       .SendFloatAttributeData cfg.HEMAX_COLOR_ATTRIBUTE arr (VertIndexCount mesh)]
    else if CdOwner cfg mesh = .POINT then
      [.AddNewPointAttribute (VertCount mesh) 3 cfg.HEMAX_COLOR_ATTRIBUTE,
       .SendFloatAttributeData cfg.HEMAX_COLOR_ATTRIBUTE arr (VertCount mesh)]
    else []

/-- Lines 534-540. -/
def softSelectionCalls (cfg : Config) (mesh : MNMesh) : List Call :=
  match SoftSelectionArray mesh with
  | none => []
  | some arr =>
    [.AddNewPointAttribute (VertCount mesh) 1 cfg.HEMAX_SOFT_SELECTION_ATTRIBUTE,
     .SendFloatAttributeData cfg.HEMAX_SOFT_SELECTION_ATTRIBUTE arr (VertCount mesh)]

/-! ## Transform detail attributes (lines 542-573) -/

/-- Lines 544-573. -/
def transformCalls (cfg : Config) (MaxNode : Option INode) : List Call :=
  match MaxNode with
  | none => []
  | some node =>
    [.AddNewDetailFloatAttribute 1 3 cfg.HEMAX_TRANSLATE_ATTR,
     .AddNewDetailFloatAttribute 1 3 cfg.HEMAX_ROTATE_ATTR,
     .AddNewDetailFloatAttribute 1 3 cfg.HEMAX_SCALE_ATTR,
     .AddNewDetailFloatAttribute 1 4 cfg.HEMAX_QUATERNION_ATTR,
     .AddNewDetailFloatAttribute 1 12 cfg.HEMAX_MAX_RAW_TM_WORLD,
     .AddNewDetailFloatAttribute 1 12 cfg.HEMAX_MAX_RAW_TM_LOCAL,
     .SendFloatAttributeData cfg.HEMAX_TRANSLATE_ATTR (node.transforms.position.map some) 1,
     .SendFloatAttributeData cfg.HEMAX_ROTATE_ATTR (node.transforms.rotationEuler.map some) 1,
     .SendFloatAttributeData cfg.HEMAX_SCALE_ATTR (node.transforms.scale.map some) 1,
     .SendFloatAttributeData cfg.HEMAX_QUATERNION_ATTR
        (node.transforms.rotationQuaternion.map some) 1,
     .SendFloatAttributeData cfg.HEMAX_MAX_RAW_TM_WORLD
        (node.transforms.WorldSpaceTM.map some) 1,
     .SendFloatAttributeData cfg.HEMAX_MAX_RAW_TM_LOCAL
        (node.transforms.LocalSpaceTM.map some) 1]

/-! ## The marshaller and the lifecycle operations -/

/-- Lines 85-583: `BuildPolyGeometryForInputNode`. `SourceNode` is the node found for
`MaxNodeHandle` at line 94; `rand1` and `rand2` are the two results of `rand()`. -/
def BuildPolyGeometryForInputNode (cfg : Config) (host : HostFns) (SourceNode : Option INode)
    (rand1 rand2 : Nat) (mesh : MNMesh) (InputNodeName : String) (NodeTransform : List ℚ)
    (MaxNode : Option INode) : List Call :=
  [.CreateInputNode (InputNodeName ++ "_" ++ toString rand1 ++ toString rand2),
   .MarshalNodeNameDetailAttribute,
   .AddNewPart (FaceCount mesh) (VertIndexCount mesh) (VertCount mesh),
   .AddNewPointAttribute (VertCount mesh) 3 cfg.HEMAX_POSITION_ATTRIBUTE,
   .SendPointAttributeData (PointArray cfg.ScaleConversion mesh) (VertIndexArray mesh)
      (FaceCountArray mesh) (FaceCount mesh) (VertIndexCount mesh) (VertCount mesh)
      cfg.HEMAX_POSITION_ATTRIBUTE,
   .AddNewPrimitiveIntAttribute (FaceCount mesh) 1 cfg.HEMAX_SMOOTHING_GROUP_ATTRIBUTE,
   .SendIntAttributeData cfg.HEMAX_SMOOTHING_GROUP_ATTRIBUTE (SmoothingGroupArray mesh)
      (FaceCount mesh),
   .AddNewPrimitiveIntAttribute (FaceCount mesh) 1 cfg.HEMAX_MATERIAL_ID_ATTRIBUTE,
   .SendIntAttributeData cfg.HEMAX_MATERIAL_ID_ATTRIBUTE (MaterialIDArray mesh)
      (FaceCount mesh)]
  ++ materialPathCalls cfg SourceNode mesh
  ++ normalCalls cfg host mesh
  ++ uvCalls cfg mesh
  ++ illuminationCalls cfg mesh
  ++ alphaCalls cfg mesh
  ++ cdCalls cfg mesh
  ++ softSelectionCalls cfg mesh
  ++ transformCalls cfg MaxNode
  ++ [.SetParentTransform NodeTransform, .FinalizeInputGeometry]

/-- What the host scene answers during one `BuildInputNode`: the node found for
`MaxNodeHandle` (`none` when there is none), the poly mesh its evaluated object converts
to (`none` when `CanConvertToType` fails), the input node name, and the two results of
`rand()`. -/
structure Scene where
  MaxInputNode : Option INode
  polyMesh : Option MNMesh
  InputNodeName : String
  rand1 : Nat
  rand2 : Nat

/-- Lines 55-83: `BuildInputNode`. -/
def BuildInputNode (cfg : Config) (host : HostFns) (scene : Scene) : List Call :=
  match scene.MaxInputNode with
  | none => []
  | some MaxInputNode =>
    match scene.polyMesh with
    | some mesh =>
      BuildPolyGeometryForInputNode cfg host scene.MaxInputNode scene.rand1 scene.rand2 mesh
        scene.InputNodeName MaxInputNode.parentTransform (some MaxInputNode)
    | none => [.LoggerAddEntry "Cannot build a geometry input node from the supplied object"]

/-- The state of the wrapper the teardown paths read: whether the session manager reports
an active session, and `Node->Info.parentId`. -/
structure InputState where
  IsSessionActive : Bool
  parentId : Int
deriving DecidableEq

/-- Lines 32-42: the destructor. -/
def destructor (st : InputState) : List Call :=
  if st.IsSessionActive = true then [.NodeDelete, .SessionDeleteNode st.parentId] else []

/-- Lines 44-53: `RebuildAfterChange`. -/
def RebuildAfterChange (cfg : Config) (host : HostFns) (st : InputState) (scene : Scene) :
    List Call :=
  [.NodeDelete, .SessionDeleteNode st.parentId] ++ BuildInputNode cfg host scene

/-! ## Notions used to state the properties -/

/-- The three components of a channel vertex, in upload order. -/
def Point3.xyz (p : Point3) : List ℚ := [p.x, p.y, p.z]

/-- The vertex a mapping channel assigns to corner `(f, v)`: `MapData[Map->F(f)->tv[v]]`. -/
def MNMap.atCorner (map : MNMap) (fv : Nat × Nat) : Point3 :=
  map.MapData ((map.F fv.1).tvAt fv.2)

/-- A three-component corner-rate buffer read off a channel: the channel's vertex at
each corner, in visiting order. -/
def cornerRateXYZ (mesh : MNMesh) (map : MNMap) : List ℚ :=
  ((cornerOrder mesh).map (fun fv => (map.atCorner fv).xyz)).flatten

/-- A three-component point-rate buffer read off a channel: channel vertex `c` for
point `c`. -/
def pointRateXYZ (mesh : MNMesh) (map : MNMap) : List ℚ :=
  ((List.range (VertCount mesh)).map (fun c => (map.MapData c).xyz)).flatten

/-- Lines 302-304 and 280-282: the components pushed for a normalised normal. -/
def remappedNormal (n : Point3) : List ℚ := [n.x, n.z, -n.y]

/-- The corners `(f, v)` of the explicit-normal table in the order lines 296-306 visit
them. -/
def MNNormalSpec.cornerOrder (spec : MNNormalSpec) : List (Nat × Nat) :=
  ((List.range spec.GetNumFaces).map
    (fun f => (cornersDown (spec.Face f).deg).map (fun v => (f, v)))).flatten

/-- The ownership rule in the words of the specification: a vertex count equal to the
point count is point-rate; otherwise one that is at most the corner count is corner-rate;
otherwise the channel is ignored. -/
def ownershipBySpec (L pointCount cornerCount : Nat) : HEMAX_AttributeOwner :=
  if L = pointCount then .POINT
  else if L ≤ cornerCount then .VERTEX
  else .INVALID

/-- The ownership rule with the guard of lines 362, 405 and 447 in front: a channel
without vertices is ignored, whatever the counts. -/
def ownershipGuarded (L pointCount cornerCount : Nat) : HEMAX_AttributeOwner :=
  if L = 0 then .INVALID else ownershipBySpec L pointCount cornerCount

/-- The calls that emit a buffer under an ownership class: none when the channel is
ignored, a point attribute of `VertCount` elements when point-rate, a vertex attribute of
`VertIndexCount` elements when corner-rate. -/
def emissionFor (mesh : MNMesh) (owner : HEMAX_AttributeOwner) (tupleSize : Nat)
    (name : String) (arr : List (Option ℚ)) : List Call :=
  match owner with
  | .INVALID => []
  | .POINT =>
    [.AddNewPointAttribute (VertCount mesh) tupleSize name,
     .SendFloatAttributeData name arr (VertCount mesh)]
  | .VERTEX =>
    [.AddNewVertexAttribute (VertIndexCount mesh) tupleSize name,
     .SendFloatAttributeData name arr (VertIndexCount mesh)]

/-- Whether a call registers or uploads a string attribute. -/
def Call.isStringAttribute : Call → Bool
  | .AddNewPrimitiveStringAttribute _ _ _ => true
  | .SendStringAttributeData _ _ _ => true
  | _ => false

/-- The material-path entry of a face under a multi-material, in the words of the
specification: the name of the sub-material in the face's slot when the slot is below the
sub-material count and holds a material, the empty string otherwise. -/
def subMaterialNameOrEmpty (MeshMat : Mtl) (slot : Nat) : String :=
  if slot < MeshMat.NumSubMtls then
    match MeshMat.GetSubMtl slot with
    | some SubMatName => SubMatName
    | none => ""
  else ""

/-! ## Concrete inputs -/

/-- Host functions for concrete evaluations: the normals of the examples are unit vectors,
which `Normalize` leaves as they are; every face normal is the `z` axis. -/
def exampleHost : HostFns := ⟨fun n => n, fun _ => ⟨0, 0, 1⟩⟩

/-- A configuration for concrete evaluations: the host SDK's channel numbering
(`MAX_MESHMAPS = 100`, color `0`, illumination `-1`, alpha `-2`), short attribute names,
unit scale `1`. -/
def exampleConfig : Config :=
  { MAX_MESHMAPS := 100
    HEMAX_MAPPING_CHANNEL_COLOR := 0
    HEMAX_MAPPING_CHANNEL_ALPHA := -2
    HEMAX_MAPPING_CHANNEL_ILLUMINATION := -1
    HEMAX_POSITION_ATTRIBUTE := "P"
    HEMAX_NORMAL_ATTRIBUTE := "N"
    HEMAX_UV_ATTRIBUTE := "uv"
    HEMAX_SMOOTHING_GROUP_ATTRIBUTE := "smoothing_group"
    HEMAX_MATERIAL_ID_ATTRIBUTE := "material_id"
    HEMAX_MATERIAL_PATH_ATTRIBUTE := "material_path"
    HEMAX_COLOR_ATTRIBUTE := "Cd"
    HEMAX_ALPHA_ATTRIBUTE := "Alpha"
    HEMAX_ILLUMINATION_ATTRIBUTE := "illumination"
    HEMAX_SOFT_SELECTION_ATTRIBUTE := "soft_selection"
    HEMAX_TRANSLATE_ATTR := "translate"
    HEMAX_ROTATE_ATTR := "rotate"
    HEMAX_SCALE_ATTR := "scale"
    HEMAX_QUATERNION_ATTR := "quaternion"
    HEMAX_MAX_RAW_TM_WORLD := "raw_tm_world"
    HEMAX_MAX_RAW_TM_LOCAL := "raw_tm_local"
    ScaleConversion := 1 }

/-- Four points, the corners of a unit square in the `xy` plane. -/
def squarePoints : List Point3 := [⟨0, 0, 0⟩, ⟨1, 0, 0⟩, ⟨1, 1, 0⟩, ⟨0, 1, 0⟩]

/-- Two triangles over the square, with an explicit-normal table that holds three normals
but describes the first triangle only. -/
def twoTrianglesOneNormalFace : MNMesh :=
  { v := squarePoints
    f := [⟨3, [0, 1, 2], 1, 0⟩, ⟨3, [0, 2, 3], 1, 0⟩]
    M := fun _ => none
    specifiedNormals := some ⟨[⟨1, 0, 0⟩, ⟨0, 1, 0⟩, ⟨0, 0, 1⟩], [⟨3, [0, 1, 2]⟩]⟩
    selectionWeights := none }

/-- A triangle and a quad over five points, with an explicit-normal table whose two faces
have the degrees the other way round (a quad, then a triangle). -/
def triangleQuadSwappedNormalFaces : MNMesh :=
  { v := squarePoints ++ [⟨2, 0, 0⟩]
    f := [⟨3, [0, 1, 2], 1, 0⟩, ⟨4, [0, 2, 4, 3], 1, 0⟩]
    M := fun _ => none
    specifiedNormals :=
      some ⟨[⟨1, 0, 0⟩, ⟨0, 1, 0⟩, ⟨0, 0, 1⟩, ⟨-1, 0, 0⟩],
            [⟨4, [0, 1, 2, 3]⟩, ⟨3, [0, 1, 2]⟩]⟩
    selectionWeights := none }

/-- The square as one quad, smoothing group 1, material slot 0, no channel. -/
def oneQuad : MNMesh :=
  { v := squarePoints
    f := [⟨4, [0, 1, 2, 3], 1, 0⟩]
    M := fun _ => none
    specifiedNormals := none
    selectionWeights := none }

/-- The four points of the square and no face. -/
def fourPointsNoFaces : MNMesh :=
  { v := squarePoints
    f := []
    M := fun _ => none
    specifiedNormals := none
    selectionWeights := none }

/-- The quad with a color channel (channel `0`) that is present and has no vertex. -/
def quadEmptyColorChannel : MNMesh :=
  { oneQuad with M := fun mp => if mp = 0 then some ⟨0, none, []⟩ else none }

/-- The four points without a face, with a UV channel 1 whose vertex array is allocated
and whose vertex count is zero. -/
def fourPointsEmptyUV : MNMesh :=
  { fourPointsNoFaces with M := fun mp => if mp = 1 then some ⟨0, some [], []⟩ else none }

/-- The quad with an alpha channel (channel `-2`) of four vertices: red, green, blue and
white. -/
def quadWithAlpha : MNMesh :=
  { oneQuad with
    M := fun mp =>
      if mp = -2 then
        some ⟨4, some [⟨1, 0, 0⟩, ⟨0, 1, 0⟩, ⟨0, 0, 1⟩, ⟨1, 1, 1⟩], [⟨4, [0, 1, 2, 3]⟩]⟩
      else none }

/-- The quad with a color channel (channel `0`) of two vertices, red and green, used
alternately by the four corners. -/
def quadCornerColor : MNMesh :=
  { oneQuad with
    M := fun mp =>
      if mp = 0 then some ⟨2, some [⟨1, 0, 0⟩, ⟨0, 1, 0⟩], [⟨4, [0, 1, 0, 1]⟩]⟩ else none }

/-- Transform values for the example nodes. -/
def exampleTransforms : NodeTransforms :=
  ⟨[0, 0, 0], [0, 0, 0], [1, 1, 1], [0, 0, 0, 1],
   [1, 0, 0, 0, 1, 0, 0, 0, 1, 0, 0, 0], [1, 0, 0, 0, 1, 0, 0, 0, 1, 0, 0, 0]⟩

/-- A node whose material has two sub-material slots, the second one empty. -/
def multiMaterialNode : INode := ⟨some ⟨"multi", [some "brick", none]⟩, exampleTransforms, []⟩

/-- A node whose material has no sub-material. -/
def singleMaterialNode : INode := ⟨some ⟨"steel", []⟩, exampleTransforms, []⟩

/-! ## Notions and inputs for positions, call order, channels, names and counters -/

/-- The position remap of the specification: `(x, y, z) → (x·s, z·s, -y·s)`. -/
def remapPosition (s : ℚ) (p : Point3) : Point3 := ⟨p.x * s, p.z * s, -p.y * s⟩

/-- The inverse remap of the specification: `(x', y', z') → (x'/s, -z'/s, y'/s)`. -/
def inverseRemapPosition (s : ℚ) (q : Point3) : Point3 := ⟨q.x / s, -q.z / s, q.y / s⟩

/-- A three-component buffer read back as points, three cells at a time; a cell that was
never written reads as `0`. -/
def readTriples : List (Option ℚ) → List Point3
  | a :: b :: c :: rest => ⟨a.getD 0, b.getD 0, c.getD 0⟩ :: readTriples rest
  | _ => []

/-- Two points off the origin and no face. -/
def twoPoints : MNMesh :=
  { v := [⟨1, 2, 3⟩, ⟨-4, 5, 6⟩]
    f := []
    M := fun _ => none
    specifiedNormals := none
    selectionWeights := none }

/-- Whether a call registers or uploads an attribute through `AddNew...Attribute` or
`Send...AttributeData`. -/
def Call.isAttributeCall (c : Call) : Bool := c.registers.isSome || c.uploads.isSome

/-- The subscripts of `VertexNormals` at line 241 (and again, in the same order, at lines
263 and 277), in visiting order. -/
def VertexNormalsSubscripts (mesh : MNMesh) : List Nat :=
  forCorners mesh (fun acc i j => acc ++ [(mesh.F i).vtxAt j]) []

/-- Five points and one triangle over points 0, 1 and 4; points 2 and 3 belong to no
face. -/
def triangleWithLoosePoints : MNMesh :=
  { v := squarePoints ++ [⟨2, 0, 0⟩]
    f := [⟨3, [0, 1, 4], 1, 0⟩]
    M := fun _ => none
    specifiedNormals := none
    selectionWeights := none }

/-- The quad where the color, illumination and alpha channel numbers (`0`, `-1`, `-2`) all
give the same channel: two vertices, red and green, used alternately by the corners. -/
def quadSharedChannel : MNMesh :=
  { oneQuad with
    M := fun mp =>
      if mp = 0 ∨ mp = -1 ∨ mp = -2 then
        some ⟨2, some [⟨1, 0, 0⟩, ⟨0, 1, 0⟩], [⟨4, [0, 1, 0, 1]⟩]⟩
      else none }

/-- The quad with a color channel of four vertices (red, green, blue, white), as many as
there are points, whose face uses them in the order `1, 0, 3, 2` while the face itself lists
the points `0, 1, 2, 3`. -/
def quadCrossedColors : MNMesh :=
  { oneQuad with
    M := fun mp =>
      if mp = 0 then
        some ⟨4, some [⟨1, 0, 0⟩, ⟨0, 1, 0⟩, ⟨0, 0, 1⟩, ⟨1, 1, 1⟩], [⟨4, [1, 0, 3, 2]⟩]⟩
      else none }

/-- The quad with a color channel of four vertices, as many as there are points, whose
face uses them under the indices of the points. -/
def quadPointColors : MNMesh :=
  { oneQuad with
    M := fun mp =>
      if mp = 0 then
        some ⟨4, some [⟨1, 0, 0⟩, ⟨0, 1, 0⟩, ⟨0, 0, 1⟩, ⟨1, 1, 1⟩], [⟨4, [0, 1, 2, 3]⟩]⟩
      else none }

/-- One quad over four points, smoothing group 1, material slot 0, no channel, no explicit
normal, no selection weight; `a, b, c, d` are the point indices the face lists. -/
def quadOver (p0 p1 p2 p3 : Point3) (a b c d : Nat) : MNMesh :=
  { v := [p0, p1, p2, p3]
    f := [⟨4, [a, b, c, d], 1, 0⟩]
    M := fun _ => none
    specifiedNormals := none
    selectionWeights := none }

/-- Whether corner `fv` belongs to a face with smoothing mask zero and sits at vertex
`V`. -/
def isZeroMaskCornerAt (mesh : MNMesh) (V : Nat) (fv : Nat × Nat) : Bool :=
  decide ((mesh.F fv.1).smGroup = 0) && decide ((mesh.F fv.1).vtxAt fv.2 = V)

/-- The number of zero-mask corners at vertex `V` among the first `k` corners visited. -/
def zeroMaskVisits (mesh : MNMesh) (V k : Nat) : Nat :=
  ((cornerOrder mesh).take k).countP (isZeroMaskCornerAt mesh V)

/-- The state `(NoSGTable, NormalArray)` of the read-back loop of lines 250-284 after its
first `k` corners. -/
def readBackState (host : HostFns) (mesh : MNMesh) (k : Nat) : List (Nat × Nat) × List ℚ :=
  ((cornerOrder mesh).take k).foldl
    (fun st fv => readBackBody host mesh (accumulateNormals host mesh).1 st fv.1 fv.2)
    ((accumulateNormals host mesh).2, [])

/-- Host functions for concrete evaluations with two faces: `Normalize` leaves the unit
vectors of the examples as they are; face 0 has normal `(0, 0, 1)`, every other face
`(1, 0, 0)`. -/
def twoNormalsHost : HostFns := ⟨fun n => n, fun i => if i = 0 then ⟨0, 0, 1⟩ else ⟨1, 0, 0⟩⟩

/-- Two triangles over the square, both with smoothing mask zero, sharing points 0 and
2. -/
def twoUnsmoothedTriangles : MNMesh :=
  { v := squarePoints
    f := [⟨3, [0, 1, 2], 0, 0⟩, ⟨3, [0, 2, 3], 0, 0⟩]
    M := fun _ => none
    specifiedNormals := none
    selectionWeights := none }

/-! ## Lemmas on arrays, stores and loops -/

theorem applyStores_enumFrom {α : Type} (vals : List α) :
    ∀ (pre post : List (Option α)),
      applyStores (pre ++ List.replicate vals.length none ++ post)
          (List.enumFrom pre.length vals)
        = pre ++ vals.map some ++ post := by
  induction vals with
  | nil => intro pre post; simp [applyStores]
  | cons a as ih =>
    intro pre post
    have h := ih (pre ++ [some a]) post
    simp only [List.length_append, List.length_singleton, List.append_assoc,
      List.singleton_append] at h
    simp only [applyStores, List.enumFrom_cons, List.foldl_cons, List.length_cons,
      List.replicate_succ, List.map_cons, List.append_assoc, List.cons_append] at h ⊢
    rw [← h]
    congr 1
    simp [store]

theorem applyStores_alloc {α : Type} (vals : List α) (n : Nat) (hn : n = vals.length) :
    applyStores (alloc α n) (List.enumFrom 0 vals) = vals.map some := by
  subst hn
  have h := applyStores_enumFrom vals [] []
  simpa [alloc] using h

theorem length_cornersDown (deg : Nat) : (cornersDown deg).length = deg := by
  simp [cornersDown]

theorem getElem?_cornersDown (deg c : Nat) (hc : c < deg) :
    (cornersDown deg)[c]? = some (deg - 1 - c) := by
  unfold cornersDown
  rw [List.getElem?_reverse (by simpa using hc)]
  simp only [List.length_range]
  rw [List.getElem?_range (by omega)]

theorem range_map_getD {α : Type} (l : List α) (d : α) :
    (List.range l.length).map (fun i => l.getD i d) = l := by
  apply List.ext_getElem?
  intro n
  by_cases h : n < l.length
  · simp [List.getElem?_range h, List.getD_eq_getElem?_getD, List.getElem?_eq_getElem h, h]
  · have h2 : l.length ≤ n := Nat.le_of_not_lt h
    simp [List.getElem?_eq_none h2, h2]

theorem range_map_F (mesh : MNMesh) : (List.range mesh.FNum).map mesh.F = mesh.f := by
  have h := range_map_getD mesh.f ⟨0, [], 0, 0⟩
  exact h

theorem foldl_add_eq_sum {α : Type} (g : α → Nat) (l : List α) :
    ∀ n : Nat, l.foldl (fun n x => n + g x) n = n + (l.map g).sum := by
  induction l with
  | nil => intro n; simp
  | cons x rest ih => intro n; simp [ih, Nat.add_assoc]

theorem VertIndexCount_eq_sum (mesh : MNMesh) :
    VertIndexCount mesh = (mesh.f.map (fun F => F.deg)).sum := by
  unfold VertIndexCount FaceCount
  rw [foldl_add_eq_sum (fun i => (mesh.F i).deg)]
  rw [← range_map_F mesh]
  simp [Function.comp_def]

theorem indexCornerLoop_eq (F : MNFace) (CurIndex : Nat) :
    ∀ (vs : List Nat) (c : Nat),
      indexCornerLoop F CurIndex vs c = List.enumFrom (CurIndex + c) (vs.map F.vtxAt) := by
  intro vs
  induction vs with
  | nil => intro c; rfl
  | cons v vs ih => intro c; simp [indexCornerLoop, ih, Nat.add_assoc]

theorem indexFaceLoop_eq (mesh : MNMesh) :
    ∀ (is : List Nat) (CurIndex : Nat),
      indexFaceLoop mesh is CurIndex
        = List.enumFrom CurIndex
            ((is.map (fun i => (cornersDown (mesh.F i).deg).map (mesh.F i).vtxAt)).flatten) := by
  intro is
  induction is with
  | nil => intro c; rfl
  | cons i rest ih =>
    intro c
    simp [indexFaceLoop, ih, indexCornerLoop_eq, List.enumFrom_append, length_cornersDown]

theorem length_cornerOrder (mesh : MNMesh) :
    (cornerOrder mesh).length = VertIndexCount mesh := by
  rw [VertIndexCount_eq_sum, ← range_map_F mesh]
  simp [cornerOrder, List.length_flatten, Function.comp_def, length_cornersDown]

/-- The stores into `VertIndexArray` are the corners in visiting order, each stored at
its own position. -/
theorem VertIndexStores_eq (mesh : MNMesh) :
    VertIndexStores mesh
      = List.enumFrom 0 ((cornerOrder mesh).map (fun fv => (mesh.F fv.1).vtxAt fv.2)) := by
  unfold VertIndexStores FaceCount cornerOrder
  rw [indexFaceLoop_eq]
  simp [List.map_flatten, Function.comp_def]

theorem VertIndexArray_eq (mesh : MNMesh) :
    VertIndexArray mesh
      = (cornerOrder mesh).map (fun fv => some ((mesh.F fv.1).vtxAt fv.2)) := by
  unfold VertIndexArray
  rw [VertIndexStores_eq, applyStores_alloc _ _ (by simp [length_cornerOrder])]
  simp

theorem getElem?_flatten_offset {α : Type} (L : List (List α)) :
    ∀ (i c : Nat), c < (L.getD i []).length →
      (L.flatten)[((L.take i).map List.length).sum + c]? = (L.getD i [])[c]? := by
  induction L with
  | nil => intro i c hc; simp at hc
  | cons l rest ih =>
    intro i c hc
    cases i with
    | zero =>
      simp only [List.getD_cons_zero] at hc
      simp [List.getElem?_append_left hc]
    | succ j =>
      simp only [List.getD_cons_succ] at hc
      have h := ih j c hc
      simp only [List.take_succ_cons, List.map_cons, List.sum_cons, List.flatten_cons,
        List.getD_cons_succ]
      rw [List.getElem?_append_right (by omega)]
      rw [← h]
      congr 1
      omega

theorem cornerOrder_lengths (mesh : MNMesh) :
    ((List.range mesh.FNum).map
        (fun f => (cornersDown (mesh.F f).deg).map (fun v => (f, v)))).map List.length
      = mesh.f.map (fun F => F.deg) := by
  rw [← range_map_F mesh]
  simp [Function.comp_def, length_cornersDown]

/-- Position `cornerOffset i + c` of the visiting order is corner `deg - 1 - c` of
face `i`. -/
theorem getElem?_cornerOrder (mesh : MNMesh) (i c : Nat) (hi : i < FaceCount mesh)
    (hc : c < (mesh.F i).deg) :
    (cornerOrder mesh)[cornerOffset mesh i + c]? = some (i, (mesh.F i).deg - 1 - c) := by
  have hi2 : i < mesh.FNum := hi
  have hget : ((List.range mesh.FNum).map
        (fun f => (cornersDown (mesh.F f).deg).map (fun v => (f, v)))).getD i []
      = (cornersDown (mesh.F i).deg).map (fun v => (i, v)) := by
    simp [List.getD_eq_getElem?_getD, List.getElem?_range hi2, hi2]
  have h := getElem?_flatten_offset ((List.range mesh.FNum).map
        (fun f => (cornersDown (mesh.F f).deg).map (fun v => (f, v)))) i c
        (by rw [hget]; simpa [length_cornersDown] using hc)
  have hoff : ((((List.range mesh.FNum).map
        (fun f => (cornersDown (mesh.F f).deg).map (fun v => (f, v)))).take i).map
          List.length).sum = cornerOffset mesh i := by
    have h1 : ∀ (α β : Type) (g : α → β) (l : List α) (n : Nat),
        (l.take n).map g = (l.map g).take n := by
      intro α β g l n; simp [List.map_take]
    rw [h1, cornerOrder_lengths, ← h1]
    rfl
  rw [hget, hoff] at h
  unfold cornerOrder
  rw [h]
  simp [getElem?_cornersDown _ _ hc]

theorem cornerOrder_map_face {β : Type} (mesh : MNMesh) (g : MNFace → Nat → β) :
    (cornerOrder mesh).map (fun fv => g (mesh.F fv.1) fv.2)
      = (mesh.f.map (fun F => (cornersDown F.deg).map (g F))).flatten := by
  conv_rhs => rw [← range_map_F mesh]
  simp [cornerOrder, List.map_flatten, Function.comp_def]

theorem cornersDown_map_vtxAt (F : MNFace) (h : F.vtx.length = F.deg) :
    (cornersDown F.deg).map F.vtxAt = F.vtx.reverse := by
  unfold cornersDown
  rw [List.map_reverse, ← h]
  congr 1
  exact range_map_getD F.vtx 0

/-- C1. The vertex-index buffer built by `BuildPolyGeometryForInputNode` is the
concatenation, in face order, of each face's vertex-index list reversed: the stores go to
the slots `0, 1, ..., VertIndexCount - 1` in this order, one store per slot; the slot at
offset `o_i + c` holds `F(i).vtx[deg_i - 1 - c]`; and when every face lists exactly `deg`
vertex indices the buffer is the faces' reversed index lists put end to end. -/
theorem C1_vertex_index_buffer (mesh : MNMesh) :
    (VertIndexStores mesh).map Prod.fst = List.range (VertIndexCount mesh)
    ∧ (VertIndexArray mesh).length = VertIndexCount mesh
    ∧ (∀ i c, i < FaceCount mesh → c < (mesh.F i).deg →
        (VertIndexArray mesh)[cornerOffset mesh i + c]?
          = some (some ((mesh.F i).vtxAt ((mesh.F i).deg - 1 - c))))
    ∧ ((∀ F ∈ mesh.f, F.vtx.length = F.deg) →
        VertIndexArray mesh = ((mesh.f.map (fun F => F.vtx.reverse)).flatten).map some) := by
  refine ⟨?_, ?_, ?_, ?_⟩
  · rw [VertIndexStores_eq, List.enumFrom_map_fst]
    simp [length_cornerOrder, List.range_eq_range']
  · simp [VertIndexArray_eq, length_cornerOrder]
  · intro i c hi hc
    rw [VertIndexArray_eq, List.getElem?_map, getElem?_cornerOrder mesh i c hi hc]
    rfl
  · intro hwf
    rw [VertIndexArray_eq]
    have h1 := cornerOrder_map_face mesh (fun F v => F.vtxAt v)
    have h2 : mesh.f.map (fun F => (cornersDown F.deg).map (fun v => F.vtxAt v))
        = mesh.f.map (fun F => F.vtx.reverse) :=
      List.map_congr_left (fun F hF => cornersDown_map_vtxAt F (hwf F hF))
    rw [← h2, ← h1, List.map_map]
    rfl

theorem forCorners_eq_foldl {σ : Type} (mesh : MNMesh) (body : σ → Nat → Nat → σ) (init : σ) :
    forCorners mesh body init
      = (cornerOrder mesh).foldl (fun st fv => body st fv.1 fv.2) init := by
  unfold forCorners cornerOrder
  generalize List.range mesh.FNum = fs
  induction fs generalizing init with
  | nil => rfl
  | cons f rest ih =>
    simp only [List.foldl_cons, List.map_cons, List.flatten_cons, List.foldl_append]
    rw [ih]
    congr 1
    rw [List.foldl_map]

theorem foldl_push {α β : Type} (g : α → List β) (l : List α) :
    ∀ init : List β, l.foldl (fun st x => st ++ g x) init = init ++ (l.map g).flatten := by
  induction l with
  | nil => intro init; simp
  | cons x rest ih => intro init; simp [ih]

theorem foldl_stores {α β : Type} (k : Nat) (g : α → List β) (hg : ∀ x, (g x).length = k)
    (l : List α) :
    ∀ (n : Nat) (ws : List (Nat × β)),
      l.foldl (fun st x => (st.1 + k, st.2 ++ List.enumFrom st.1 (g x))) (n, ws)
        = (n + k * l.length, ws ++ List.enumFrom n ((l.map g).flatten)) := by
  induction l with
  | nil => intro n ws; simp
  | cons x rest ih =>
    intro n ws
    simp only [List.foldl_cons, ih, List.map_cons, List.flatten_cons, List.enumFrom_append,
      List.length_cons, hg, List.append_assoc]
    congr 1
    ring

theorem range_map_pair {β : Type} (g : Nat → β) (n : Nat) :
    (List.range n).map (fun i => (i, g i)) = List.enumFrom 0 ((List.range n).map g) := by
  apply List.ext_getElem?
  intro m
  simp only [List.getElem?_map, List.getElem?_enumFrom]
  by_cases h : m < n
  · simp [List.getElem?_range h]
  · simp [List.getElem?_eq_none (l := List.range n) (by simpa using h)]

theorem range_map_triple {β : Type} (a b d : Nat → β) (n : Nat) :
    ((List.range n).map (fun c => [(c * 3, a c), (c * 3 + 1, b c), (c * 3 + 2, d c)])).flatten
      = List.enumFrom 0 (((List.range n).map (fun c => [a c, b c, d c])).flatten) := by
  induction n with
  | zero => rfl
  | succ n ih =>
    simp only [List.range_succ, List.map_append, List.flatten_append, ih, List.enumFrom_append,
      List.map_cons, List.map_nil, List.flatten_cons, List.flatten_nil, List.append_nil]
    congr 1
    simp [List.length_flatten, Function.comp_def, Nat.mul_comm]

theorem length_flatten_const {α β : Type} (k : Nat) (g : α → List β)
    (hg : ∀ x, (g x).length = k) (l : List α) :
    ((l.map g).flatten).length = k * l.length := by
  induction l with
  | nil => simp
  | cons x rest ih => simp [ih, hg, Nat.mul_succ, Nat.add_comm]

/-! ## The channel buffers in closed form -/

theorem UVArray_eq (mesh : MNMesh) (UVMap : MNMap) :
    UVArray mesh UVMap = cornerRateXYZ mesh UVMap := by
  unfold UVArray cornerRateXYZ
  rw [forCorners_eq_foldl]
  have h := foldl_push (fun fv : Nat × Nat => (UVMap.atCorner fv).xyz) (cornerOrder mesh) []
  simpa [MNMap.atCorner, Point3.xyz] using h

theorem length_cornerRateXYZ (mesh : MNMesh) (map : MNMap) :
    (cornerRateXYZ mesh map).length = 3 * VertIndexCount mesh := by
  unfold cornerRateXYZ
  rw [length_flatten_const 3 (fun fv : Nat × Nat => (map.atCorner fv).xyz) (fun _ => rfl),
    length_cornerOrder]

theorem length_pointRateXYZ (mesh : MNMesh) (map : MNMap) :
    (pointRateXYZ mesh map).length = 3 * VertCount mesh := by
  unfold pointRateXYZ
  rw [length_flatten_const 3 (fun c : Nat => (map.MapData c).xyz) (fun _ => rfl),
    List.length_range]

theorem CdCornerStores_eq (mesh : MNMesh) (ColorMap : MNMap) :
    CdCornerStores mesh ColorMap = List.enumFrom 0 (cornerRateXYZ mesh ColorMap) := by
  unfold CdCornerStores cornerRateXYZ
  rw [forCorners_eq_foldl]
  have h := foldl_stores 3 (fun fv : Nat × Nat => (ColorMap.atCorner fv).xyz) (fun _ => rfl)
    (cornerOrder mesh) 0 []
  simp only [List.nil_append] at h
  exact congrArg Prod.snd h

theorem CdPointStores_eq (mesh : MNMesh) (ColorMap : MNMap) :
    CdPointStores mesh ColorMap = List.enumFrom 0 (pointRateXYZ mesh ColorMap) := by
  unfold CdPointStores pointRateXYZ
  exact range_map_triple _ _ _ _

theorem IlluminationCornerStores_eq (mesh : MNMesh) (IlluminationMap : MNMap) :
    IlluminationCornerStores mesh IlluminationMap
      = List.enumFrom 0 (cornerRateXYZ mesh IlluminationMap) := by
  unfold IlluminationCornerStores cornerRateXYZ
  rw [forCorners_eq_foldl]
  have h := foldl_stores 3 (fun fv : Nat × Nat => (IlluminationMap.atCorner fv).xyz)
    (fun _ => rfl) (cornerOrder mesh) 0 []
  simp only [List.nil_append] at h
  exact congrArg Prod.snd h

theorem IlluminationPointStores_eq (mesh : MNMesh) (IlluminationMap : MNMap) :
    IlluminationPointStores mesh IlluminationMap
      = List.enumFrom 0 (pointRateXYZ mesh IlluminationMap) := by
  unfold IlluminationPointStores pointRateXYZ
  exact range_map_triple _ _ _ _

theorem AlphaCornerStores_eq (mesh : MNMesh) (AlphaMap : MNMap) :
    AlphaCornerStores mesh AlphaMap
      = List.enumFrom 0 ((cornerOrder mesh).map
          (fun fv => ConvertedAlpha (AlphaMap.atCorner fv))) := by
  unfold AlphaCornerStores
  rw [forCorners_eq_foldl]
  have h := foldl_stores 1 (fun fv : Nat × Nat => [ConvertedAlpha (AlphaMap.atCorner fv)])
    (fun _ => rfl) (cornerOrder mesh) 0 []
  simp only [List.nil_append] at h
  have h2 : ((cornerOrder mesh).map
      (fun fv : Nat × Nat => [ConvertedAlpha (AlphaMap.atCorner fv)])).flatten
      = (cornerOrder mesh).map (fun fv => ConvertedAlpha (AlphaMap.atCorner fv)) := by
    induction cornerOrder mesh with
    | nil => rfl
    | cons x rest ih => simp [ih]
  rw [h2] at h
  exact congrArg Prod.snd h

theorem AlphaPointStores_eq (mesh : MNMesh) (AlphaMap : MNMap) :
    AlphaPointStores mesh AlphaMap
      = List.enumFrom 0 ((List.range (VertCount mesh)).map
          (fun c => ConvertedAlpha (AlphaMap.MapData c))) := by
  unfold AlphaPointStores
  exact range_map_pair _ _

/-- The outcome of lines 358-399 for a present colour channel, case by case. -/
theorem colorChannel_eq (cfg : Config) (mesh : MNMesh) (ColorMap : MNMap)
    (h : mesh.M cfg.HEMAX_MAPPING_CHANNEL_COLOR = some ColorMap) :
    colorChannel cfg mesh =
      if ColorMap.numv = 0 then (none, .INVALID)
      else if ColorMap.numv = VertCount mesh then
        (some ((pointRateXYZ mesh ColorMap).map some), .POINT)
      else if ColorMap.numv ≤ VertIndexCount mesh then
        (some ((cornerRateXYZ mesh ColorMap).map some), .VERTEX)
      else (none, .INVALID) := by
  unfold colorChannel
  rw [h]
  simp only [CdPointStores_eq, CdCornerStores_eq]
  rw [applyStores_alloc _ _ (by rw [length_pointRateXYZ, Nat.mul_comm]),
    applyStores_alloc _ _ (by rw [length_cornerRateXYZ, Nat.mul_comm])]
  by_cases h0 : ColorMap.numv = 0
  · simp [h0]
  · simp [h0, Nat.pos_of_ne_zero h0]

/-- The outcome of lines 443-484 for a present illumination channel, case by case. -/
theorem illuminationChannel_eq (cfg : Config) (mesh : MNMesh) (IlluminationMap : MNMap)
    (h : mesh.M cfg.HEMAX_MAPPING_CHANNEL_ILLUMINATION = some IlluminationMap) :
    illuminationChannel cfg mesh =
      if IlluminationMap.numv = 0 then (none, .INVALID)
      else if IlluminationMap.numv = VertCount mesh then
        (some ((pointRateXYZ mesh IlluminationMap).map some), .POINT)
      else if IlluminationMap.numv ≤ VertIndexCount mesh then
        (some ((cornerRateXYZ mesh IlluminationMap).map some), .VERTEX)
      else (none, .INVALID) := by
  unfold illuminationChannel
  rw [h]
  simp only [IlluminationPointStores_eq, IlluminationCornerStores_eq]
  rw [applyStores_alloc _ _ (by rw [length_pointRateXYZ, Nat.mul_comm]),
    applyStores_alloc _ _ (by rw [length_cornerRateXYZ, Nat.mul_comm])]
  by_cases h0 : IlluminationMap.numv = 0
  · simp [h0]
  · simp [h0, Nat.pos_of_ne_zero h0]

/-- The outcome of lines 401-441 for a present alpha channel, case by case. -/
theorem alphaChannel_eq (cfg : Config) (mesh : MNMesh) (AlphaMap : MNMap)
    (h : mesh.M cfg.HEMAX_MAPPING_CHANNEL_ALPHA = some AlphaMap) :
    alphaChannel cfg mesh =
      if AlphaMap.numv = 0 then (none, .INVALID)
      else if AlphaMap.numv = VertCount mesh then
        (some (((List.range (VertCount mesh)).map
          (fun c => ConvertedAlpha (AlphaMap.MapData c))).map some), .POINT)
      else if AlphaMap.numv ≤ VertIndexCount mesh then
        (some (((cornerOrder mesh).map
          (fun fv => ConvertedAlpha (AlphaMap.atCorner fv))).map some), .VERTEX)
      else (none, .INVALID) := by
  unfold alphaChannel
  rw [h]
  simp only [AlphaPointStores_eq, AlphaCornerStores_eq]
  rw [applyStores_alloc _ _ (by simp),
    applyStores_alloc _ _ (by simp [length_cornerOrder])]
  by_cases h0 : AlphaMap.numv = 0
  · simp [h0]
  · simp [h0, Nat.pos_of_ne_zero h0]

theorem colorChannel_absent (cfg : Config) (mesh : MNMesh)
    (h : mesh.M cfg.HEMAX_MAPPING_CHANNEL_COLOR = none) :
    colorChannel cfg mesh = (none, .INVALID) := by
  unfold colorChannel; rw [h]

theorem alphaChannel_absent (cfg : Config) (mesh : MNMesh)
    (h : mesh.M cfg.HEMAX_MAPPING_CHANNEL_ALPHA = none) :
    alphaChannel cfg mesh = (none, .INVALID) := by
  unfold alphaChannel; rw [h]

theorem illuminationChannel_absent (cfg : Config) (mesh : MNMesh)
    (h : mesh.M cfg.HEMAX_MAPPING_CHANNEL_ILLUMINATION = none) :
    illuminationChannel cfg mesh = (none, .INVALID) := by
  unfold illuminationChannel; rw [h]

theorem FaceCountArray_eq (mesh : MNMesh) :
    FaceCountArray mesh = mesh.f.map (fun F => some F.deg) := by
  unfold FaceCountArray
  rw [range_map_pair, applyStores_alloc _ _ (by simp)]
  conv_rhs => rw [← range_map_F mesh]
  simp [FaceCount, Function.comp_def]

theorem mem_uvCalls (cfg : Config) (mesh : MNMesh) (c : Call) (hc : c ∈ uvCalls cfg mesh) :
    ∃ texMap UVMap, texMap ∈ texMaps cfg ∧ mesh.M (texMap : Int) = some UVMap
      ∧ UVMap.v ≠ none
      ∧ (c = .AddNewVertexAttribute (VertIndexCount mesh) 3 (UVAttrName cfg texMap)
        ∨ c = .SendFloatAttributeData (UVAttrName cfg texMap)
            ((cornerRateXYZ mesh UVMap).map some) (VertIndexCount mesh)) := by
  unfold uvCalls at hc
  rw [List.mem_flatten] at hc
  obtain ⟨l, hl, hcl⟩ := hc
  rw [List.mem_map] at hl
  obtain ⟨texMap, ht, rfl⟩ := hl
  unfold uvChannelCalls at hcl
  cases hM : mesh.M (texMap : Int) with
  | none => simp [hM] at hcl
  | some UVMap =>
    cases hv : UVMap.v with
    | none => simp [hM, hv] at hcl
    | some d =>
      simp only [hM, hv, UVArray_eq] at hcl
      refine ⟨texMap, UVMap, ht, hM, by simp [hv], ?_⟩
      simpa using hcl

/-- C2. The corner count declared to the target equals the sum of the face degrees and
the sum of `FaceCountArray`; every UV buffer uploaded, and the color, alpha and
illumination buffers when the channel is classified corner-rate, hold exactly corner-count
elements, each written: `3 * VertIndexCount` numbers for UV, color and illumination,
`VertIndexCount` numbers for alpha. -/
theorem C2_corner_count (cfg : Config) (host : HostFns) (SourceNode : Option INode)
    (rand1 rand2 : Nat) (mesh : MNMesh) (InputNodeName : String) (NodeTransform : List ℚ)
    (MaxNode : Option INode) :
    (BuildPolyGeometryForInputNode cfg host SourceNode rand1 rand2 mesh InputNodeName
        NodeTransform MaxNode)[2]?
      = some (.AddNewPart (FaceCount mesh) ((mesh.f.map (fun F => F.deg)).sum) (VertCount mesh))
    ∧ VertIndexCount mesh = (mesh.f.map (fun F => F.deg)).sum
    ∧ VertIndexCount mesh = ((FaceCountArray mesh).map (fun cell => cell.getD 0)).sum
    ∧ (∀ name data count, Call.SendFloatAttributeData name data count ∈ uvCalls cfg mesh →
        count = VertIndexCount mesh
        ∧ ∃ vals : List ℚ, data = vals.map some ∧ vals.length = 3 * VertIndexCount mesh)
    ∧ (CdOwner cfg mesh = .VERTEX →
        ∃ vals : List ℚ, vals.length = 3 * VertIndexCount mesh
          ∧ CdArray cfg mesh = some (vals.map some)
          ∧ cdCalls cfg mesh
            = [.AddNewVertexAttribute (VertIndexCount mesh) 3 cfg.HEMAX_COLOR_ATTRIBUTE,
               .SendFloatAttributeData cfg.HEMAX_COLOR_ATTRIBUTE (vals.map some)
                  (VertIndexCount mesh)])
    ∧ (AlphaOwner cfg mesh = .VERTEX →
        ∃ vals : List ℚ, vals.length = VertIndexCount mesh
          ∧ AlphaArray cfg mesh = some (vals.map some)
          ∧ alphaCalls cfg mesh
            = [.AddNewVertexAttribute (VertIndexCount mesh) 1 cfg.HEMAX_ALPHA_ATTRIBUTE,
               .SendFloatAttributeData cfg.HEMAX_ALPHA_ATTRIBUTE (vals.map some)
                  (VertIndexCount mesh)])
    ∧ (IlluminationOwner cfg mesh = .VERTEX →
        ∃ vals : List ℚ, vals.length = 3 * VertIndexCount mesh
          ∧ IlluminationArray cfg mesh = some (vals.map some)
          ∧ illuminationCalls cfg mesh
            = [.AddNewVertexAttribute (VertIndexCount mesh) 3 cfg.HEMAX_ILLUMINATION_ATTRIBUTE,
               .SendFloatAttributeData cfg.HEMAX_ILLUMINATION_ATTRIBUTE (vals.map some)
                  (VertIndexCount mesh)]) := by
  refine ⟨?_, VertIndexCount_eq_sum mesh, ?_, ?_, ?_, ?_, ?_⟩
  · simp [BuildPolyGeometryForInputNode, VertIndexCount_eq_sum]
  · rw [FaceCountArray_eq, VertIndexCount_eq_sum]
    simp [Function.comp_def]
  · intro name data count hmem
    obtain ⟨texMap, UVMap, _, _, _, hc⟩ := mem_uvCalls cfg mesh _ hmem
    rcases hc with hc | hc
    · cases hc
    · cases hc
      exact ⟨rfl, _, rfl, length_cornerRateXYZ mesh UVMap⟩
  · intro hown
    cases hM : mesh.M cfg.HEMAX_MAPPING_CHANNEL_COLOR with
    | none => simp [CdOwner, colorChannel_absent cfg mesh hM] at hown
    | some ColorMap =>
      have he := colorChannel_eq cfg mesh ColorMap hM
      unfold CdOwner at hown
      refine ⟨cornerRateXYZ mesh ColorMap, length_cornerRateXYZ mesh ColorMap, ?_⟩
      unfold cdCalls CdArray CdOwner
      rw [he] at hown ⊢
      split_ifs at hown ⊢
      simp_all
  · intro hown
    cases hM : mesh.M cfg.HEMAX_MAPPING_CHANNEL_ALPHA with
    | none => simp [AlphaOwner, alphaChannel_absent cfg mesh hM] at hown
    | some AlphaMap =>
      have he := alphaChannel_eq cfg mesh AlphaMap hM
      unfold AlphaOwner at hown
      refine ⟨(cornerOrder mesh).map (fun fv => ConvertedAlpha (AlphaMap.atCorner fv)),
        by simp [length_cornerOrder], ?_⟩
      unfold alphaCalls AlphaArray AlphaOwner
      rw [he] at hown ⊢
      split_ifs at hown ⊢
      simp_all
  · intro hown
    cases hM : mesh.M cfg.HEMAX_MAPPING_CHANNEL_ILLUMINATION with
    | none => simp [IlluminationOwner, illuminationChannel_absent cfg mesh hM] at hown
    | some IlluminationMap =>
      have he := illuminationChannel_eq cfg mesh IlluminationMap hM
      unfold IlluminationOwner at hown
      refine ⟨cornerRateXYZ mesh IlluminationMap, length_cornerRateXYZ mesh IlluminationMap, ?_⟩
      unfold illuminationCalls IlluminationArray IlluminationOwner
      rw [he] at hown ⊢
      split_ifs at hown ⊢
      simp_all

theorem nested_foldl_eq {σ : Type} (cs : Nat → List Nat) (body : σ → Nat → Nat → σ)
    (fs : List Nat) :
    ∀ init : σ,
      fs.foldl (fun st f => (cs f).foldl (fun st v => body st f v) st) init
        = ((fs.map (fun f => (cs f).map (fun v => (f, v)))).flatten).foldl
            (fun st fv => body st fv.1 fv.2) init := by
  induction fs with
  | nil => intro init; rfl
  | cons f rest ih =>
    intro init
    simp only [List.foldl_cons, List.map_cons, List.flatten_cons, List.foldl_append]
    rw [ih]
    congr 1
    rw [List.foldl_map]

/-- The explicit branch pushes the table's normals in the table's own corner order. -/
theorem explicitNormals_eq (host : HostFns) (spec : MNNormalSpec) :
    explicitNormals host spec
      = (spec.cornerOrder.map
          (fun fv => remappedNormal (host.Normalize (spec.GetNormal fv.1 fv.2)))).flatten := by
  unfold explicitNormals MNNormalSpec.cornerOrder
  rw [nested_foldl_eq (fun f => cornersDown (spec.Face f).deg)
    (fun arr f v => arr ++ [(host.Normalize (spec.GetNormal f v)).x,
                  (host.Normalize (spec.GetNormal f v)).z,
                  -(host.Normalize (spec.GetNormal f v)).y])]
  have h := foldl_push
    (fun fv : Nat × Nat => remappedNormal (host.Normalize (spec.GetNormal fv.1 fv.2)))
    (((List.range spec.GetNumFaces).map
      (fun f => (cornersDown (spec.Face f).deg).map (fun v => (f, v)))).flatten) []
  simpa [remappedNormal] using h

theorem length_spec_cornerOrder (spec : MNNormalSpec) :
    spec.cornerOrder.length = (spec.faces.map (fun F => F.deg)).sum := by
  have h := range_map_getD spec.faces ⟨0, []⟩
  conv_rhs => rw [← h]
  simp [MNNormalSpec.cornerOrder, List.length_flatten, Function.comp_def, length_cornersDown,
    MNNormalSpec.GetNumFaces, MNNormalSpec.Face]

/-- In the explicit branch the number of normals is the number of corners of the table. -/
theorem length_explicitNormals (host : HostFns) (spec : MNNormalSpec) :
    (explicitNormals host spec).length = 3 * (spec.faces.map (fun F => F.deg)).sum := by
  rw [explicitNormals_eq, length_flatten_const 3
    (fun fv : Nat × Nat => remappedNormal (host.Normalize (spec.GetNormal fv.1 fv.2)))
    (fun _ => rfl), length_spec_cornerOrder]

theorem length_readBack (host : HostFns) (mesh : MNMesh)
    (VertexNormals : List (List VertexNormalNode)) (l : List (Nat × Nat)) :
    ∀ st : List (Nat × Nat) × List ℚ,
      (l.foldl (fun st fv => readBackBody host mesh VertexNormals st fv.1 fv.2) st).2.length
        = st.2.length + 3 * l.length := by
  induction l with
  | nil => intro st; simp
  | cons fv rest ih =>
    intro st
    simp only [List.foldl_cons, ih, List.length_cons]
    unfold readBackBody
    split_ifs <;> simp <;> ring

/-- In the synthesis branch the number of normals is the corner count of the mesh. -/
theorem length_synthesisedNormals (host : HostFns) (mesh : MNMesh) :
    (synthesisedNormals host mesh).length = 3 * VertIndexCount mesh := by
  unfold synthesisedNormals
  rw [forCorners_eq_foldl, length_readBack, length_cornerOrder]
  simp

/-- C3. At a mesh of two triangles whose explicit-normal table describes one triangle
only, the corner count is 6 while the explicit branch leaves 3 normals (9 numbers) in
`NormalArray`; the normal attribute is nevertheless registered and uploaded with count
6. -/
theorem C3_explicit_branch_follows_table (cfg : Config) (host : HostFns) :
    VertIndexCount twoTrianglesOneNormalFace = 6
    ∧ (NormalArray host twoTrianglesOneNormalFace).length = 9
    ∧ normalCalls cfg host twoTrianglesOneNormalFace
        = [.AddNewVertexAttribute 6 3 cfg.HEMAX_NORMAL_ATTRIBUTE,
           .SendFloatAttributeData cfg.HEMAX_NORMAL_ATTRIBUTE
              ((NormalArray host twoTrianglesOneNormalFace).map some) 6] := by
  have h1 : VertIndexCount twoTrianglesOneNormalFace = 6 := by decide
  refine ⟨h1, ?_, ?_⟩
  · have h2 : NormalArray host twoTrianglesOneNormalFace
        = explicitNormals host ⟨[⟨1, 0, 0⟩, ⟨0, 1, 0⟩, ⟨0, 0, 1⟩], [⟨3, [0, 1, 2]⟩]⟩ := rfl
    rw [h2, length_explicitNormals]
    rfl
  · simp [normalCalls, h1]

/-- C4. At a triangle followed by a quad whose explicit-normal table lists a quad followed
by a triangle, every buffer has the corner count of the mesh, and output slot 0 is corner
`v = 2` of face 0 in the index buffer, but the normal emitted in slot 0 is the table's
normal for corner `v = 3` of its face 0, not the one for corner `(0, 2)`. -/
theorem C4_explicit_normals_follow_table :
    (cornerOrder triangleQuadSwappedNormalFaces)[0]? = some (0, 2)
    ∧ (VertIndexArray triangleQuadSwappedNormalFaces)[0]? = some (some 2)
    ∧ (NormalArray exampleHost triangleQuadSwappedNormalFaces).length
        = 3 * VertIndexCount triangleQuadSwappedNormalFaces
    ∧ (NormalArray exampleHost triangleQuadSwappedNormalFaces).take 3
        = remappedNormal (exampleHost.Normalize
            ((⟨[⟨1, 0, 0⟩, ⟨0, 1, 0⟩, ⟨0, 0, 1⟩, ⟨-1, 0, 0⟩],
               [⟨4, [0, 1, 2, 3]⟩, ⟨3, [0, 1, 2]⟩]⟩ : MNNormalSpec).GetNormal 0 3))
    ∧ (NormalArray exampleHost triangleQuadSwappedNormalFaces).take 3
        ≠ remappedNormal (exampleHost.Normalize
            ((⟨[⟨1, 0, 0⟩, ⟨0, 1, 0⟩, ⟨0, 0, 1⟩, ⟨-1, 0, 0⟩],
               [⟨4, [0, 1, 2, 3]⟩, ⟨3, [0, 1, 2]⟩]⟩ : MNNormalSpec).GetNormal 0 2)) := by
  decide

theorem ownership_of_colorChannel (cfg : Config) (mesh : MNMesh) (ColorMap : MNMap)
    (h : mesh.M cfg.HEMAX_MAPPING_CHANNEL_COLOR = some ColorMap) :
    ∃ arr, cdCalls cfg mesh
        = emissionFor mesh (CdOwner cfg mesh) 3 cfg.HEMAX_COLOR_ATTRIBUTE arr
      ∧ CdOwner cfg mesh
        = ownershipGuarded ColorMap.numv (VertCount mesh) (VertIndexCount mesh) := by
  have he := colorChannel_eq cfg mesh ColorMap h
  by_cases h0 : ColorMap.numv = 0
  · simp [cdCalls, CdArray, CdOwner, he, h0, emissionFor, ownershipGuarded]
  · by_cases h1 : ColorMap.numv = VertCount mesh
    · have h0' : ¬ VertCount mesh = 0 := by rw [← h1]; exact h0
      simp [cdCalls, CdArray, CdOwner, he, h1, h0', emissionFor, ownershipGuarded,
        ownershipBySpec]
    · by_cases h2 : ColorMap.numv ≤ VertIndexCount mesh
      · simp [cdCalls, CdArray, CdOwner, he, h0, h1, h2, emissionFor, ownershipGuarded,
          ownershipBySpec]
      · simp [cdCalls, CdArray, CdOwner, he, h0, h1, h2, emissionFor, ownershipGuarded,
          ownershipBySpec]

theorem ownership_of_alphaChannel (cfg : Config) (mesh : MNMesh) (AlphaMap : MNMap)
    (h : mesh.M cfg.HEMAX_MAPPING_CHANNEL_ALPHA = some AlphaMap) :
    ∃ arr, alphaCalls cfg mesh
        = emissionFor mesh (AlphaOwner cfg mesh) 1 cfg.HEMAX_ALPHA_ATTRIBUTE arr
      ∧ AlphaOwner cfg mesh
        = ownershipGuarded AlphaMap.numv (VertCount mesh) (VertIndexCount mesh) := by
  have he := alphaChannel_eq cfg mesh AlphaMap h
  by_cases h0 : AlphaMap.numv = 0
  · simp [alphaCalls, AlphaArray, AlphaOwner, he, h0, emissionFor, ownershipGuarded]
  · by_cases h1 : AlphaMap.numv = VertCount mesh
    · have h0' : ¬ VertCount mesh = 0 := by rw [← h1]; exact h0
      simp [alphaCalls, AlphaArray, AlphaOwner, he, h1, h0', emissionFor, ownershipGuarded,
        ownershipBySpec]
    · by_cases h2 : AlphaMap.numv ≤ VertIndexCount mesh
      · simp [alphaCalls, AlphaArray, AlphaOwner, he, h0, h1, h2, emissionFor, ownershipGuarded,
          ownershipBySpec]
      · simp [alphaCalls, AlphaArray, AlphaOwner, he, h0, h1, h2, emissionFor, ownershipGuarded,
          ownershipBySpec]

theorem ownership_of_illuminationChannel (cfg : Config) (mesh : MNMesh)
    (IlluminationMap : MNMap)
    (h : mesh.M cfg.HEMAX_MAPPING_CHANNEL_ILLUMINATION = some IlluminationMap) :
    ∃ arr, illuminationCalls cfg mesh
        = emissionFor mesh (IlluminationOwner cfg mesh) 3 cfg.HEMAX_ILLUMINATION_ATTRIBUTE arr
      ∧ IlluminationOwner cfg mesh
        = ownershipGuarded IlluminationMap.numv (VertCount mesh) (VertIndexCount mesh) := by
  have he := illuminationChannel_eq cfg mesh IlluminationMap h
  by_cases h0 : IlluminationMap.numv = 0
  · simp [illuminationCalls, IlluminationArray, IlluminationOwner, he, h0, emissionFor, ownershipGuarded]
  · by_cases h1 : IlluminationMap.numv = VertCount mesh
    · have h0' : ¬ VertCount mesh = 0 := by rw [← h1]; exact h0
      simp [illuminationCalls, IlluminationArray, IlluminationOwner, he, h1, h0', emissionFor, ownershipGuarded,
        ownershipBySpec]
    · by_cases h2 : IlluminationMap.numv ≤ VertIndexCount mesh
      · simp [illuminationCalls, IlluminationArray, IlluminationOwner, he, h0, h1, h2, emissionFor, ownershipGuarded,
          ownershipBySpec]
      · simp [illuminationCalls, IlluminationArray, IlluminationOwner, he, h0, h1, h2, emissionFor, ownershipGuarded,
          ownershipBySpec]

/-- C5, as stated, fails: the quad has 4 points and 4 corners and its color channel has no
vertex; the rule of the specification makes the channel corner-rate (`0 ≤ 4`), the code
ignores it and emits nothing. -/
theorem C5_zero_vertex_channel_ignored :
    quadEmptyColorChannel.M exampleConfig.HEMAX_MAPPING_CHANNEL_COLOR = some ⟨0, none, []⟩
    ∧ VertCount quadEmptyColorChannel = 4
    ∧ VertIndexCount quadEmptyColorChannel = 4
    ∧ ownershipBySpec 0 4 4 = .VERTEX
    ∧ CdOwner exampleConfig quadEmptyColorChannel = .INVALID
    ∧ cdCalls exampleConfig quadEmptyColorChannel = [] := by
  decide

/-- C5, amended. For the color, alpha and illumination channels, the class under which a
present channel is emitted is a function of its vertex count `L`, the point count and the
corner count alone: `L = 0` is ignored; otherwise `L = pointCount` is point-rate; otherwise
`L ≤ cornerCount` is corner-rate; otherwise the channel is ignored; and the calls made are
the ones of that class. With 5 points and 12 corners, `L = 5` is point-rate, `L = 8`
corner-rate and `L = 20` ignored. -/
theorem C5_ownership_classification (cfg : Config) (mesh : MNMesh) :
    (∀ ColorMap, mesh.M cfg.HEMAX_MAPPING_CHANNEL_COLOR = some ColorMap →
      ∃ arr, cdCalls cfg mesh
          = emissionFor mesh (CdOwner cfg mesh) 3 cfg.HEMAX_COLOR_ATTRIBUTE arr
        ∧ CdOwner cfg mesh
          = ownershipGuarded ColorMap.numv (VertCount mesh) (VertIndexCount mesh))
    ∧ (∀ AlphaMap, mesh.M cfg.HEMAX_MAPPING_CHANNEL_ALPHA = some AlphaMap →
      ∃ arr, alphaCalls cfg mesh
          = emissionFor mesh (AlphaOwner cfg mesh) 1 cfg.HEMAX_ALPHA_ATTRIBUTE arr
        ∧ AlphaOwner cfg mesh
          = ownershipGuarded AlphaMap.numv (VertCount mesh) (VertIndexCount mesh))
    ∧ (∀ IlluminationMap,
        mesh.M cfg.HEMAX_MAPPING_CHANNEL_ILLUMINATION = some IlluminationMap →
      ∃ arr, illuminationCalls cfg mesh
          = emissionFor mesh (IlluminationOwner cfg mesh) 3 cfg.HEMAX_ILLUMINATION_ATTRIBUTE arr
        ∧ IlluminationOwner cfg mesh
          = ownershipGuarded IlluminationMap.numv (VertCount mesh)
              (VertIndexCount mesh))
    ∧ (∀ L pointCount cornerCount, 0 < L →
        ownershipGuarded L pointCount cornerCount = ownershipBySpec L pointCount cornerCount)
    ∧ (∀ pointCount cornerCount, ownershipGuarded 0 pointCount cornerCount = .INVALID)
    ∧ ownershipGuarded 5 5 12 = .POINT
    ∧ ownershipGuarded 8 5 12 = .VERTEX
    ∧ ownershipGuarded 20 5 12 = .INVALID := by
  refine ⟨ownership_of_colorChannel cfg mesh, ownership_of_alphaChannel cfg mesh,
    ownership_of_illuminationChannel cfg mesh, ?_, ?_, by decide, by decide, by decide⟩
  · intro L p c hL
    simp [ownershipGuarded, Nat.ne_of_gt hL]
  · intro p c
    simp [ownershipGuarded]

/-- C6. With no active session, `RebuildAfterChange` still starts with `Node->Delete()` and
`Session->DeleteNode(ParentNodeId)`, whatever the scene; the destructor in the same state
makes no call. -/
theorem C6_rebuild_deletes_without_session (cfg : Config) (host : HostFns) (scene : Scene)
    (parentId : Int) :
    (RebuildAfterChange cfg host ⟨false, parentId⟩ scene).take 2
        = [.NodeDelete, .SessionDeleteNode parentId]
    ∧ Call.NodeDelete ∈ RebuildAfterChange cfg host ⟨false, parentId⟩ scene
    ∧ Call.SessionDeleteNode parentId ∈ RebuildAfterChange cfg host ⟨false, parentId⟩ scene
    ∧ destructor ⟨false, parentId⟩ = [] := by
  refine ⟨?_, ?_, ?_, ?_⟩ <;> simp [RebuildAfterChange, destructor]

/-! ## Material names -/

theorem lookup_collect_upTo (MeshMat : Mtl) (n : Nat) :
    ∀ k : Nat,
      ((List.range n).foldl
        (fun names m =>
          match MeshMat.GetSubMtl m with
          | some SubMatName => mapInsert names m SubMatName
          | none => names)
        ([] : List (Nat × String))).lookup k
        = if k < n then MeshMat.GetSubMtl k else none := by
  induction n with
  | zero => intro k; simp
  | succ n ih =>
    intro k
    rw [List.range_succ, List.foldl_append]
    generalize (List.range n).foldl _ ([] : List (Nat × String)) = L at ih ⊢
    simp only [List.foldl_cons, List.foldl_nil]
    have hn : L.lookup n = none := by rw [ih]; simp
    cases hsub : MeshMat.GetSubMtl n with
    | none =>
      simp only [ih]
      by_cases hk : k < n
      · simp [hk, Nat.lt_succ_of_lt hk]
      · by_cases hkn : k = n
        · subst hkn; simp [hsub]
        · have : ¬ k < n + 1 := by omega
          simp [hk, this]
    | some x =>
      simp only [mapInsert, hn, Option.isSome_none, Bool.false_eq_true, if_false]
      rw [List.lookup_append, ih]
      by_cases hk : k < n
      · have hne : (k == n) = false := by simp; omega
        simp [hk, Nat.lt_succ_of_lt hk, List.lookup, hne]
      · by_cases hkn : k = n
        · subst hkn; simp [hsub, List.lookup]
        · have h1 : ¬ k < n + 1 := by omega
          have hne : (k == n) = false := by simp; omega
          simp [hk, h1, List.lookup, hne]

theorem lookup_collectSubMatNames (MeshMat : Mtl) (k : Nat) :
    (collectSubMatNames MeshMat).lookup k = MeshMat.GetSubMtl k := by
  have h : (collectSubMatNames MeshMat).lookup k
      = if k < MeshMat.NumSubMtls then MeshMat.GetSubMtl k else none :=
    lookup_collect_upTo MeshMat MeshMat.NumSubMtls k
  rw [h]
  by_cases hk : k < MeshMat.NumSubMtls
  · simp [hk]
  · have hk2 : MeshMat.subMtls.length ≤ k := Nat.le_of_not_lt hk
    simp [hk, Mtl.GetSubMtl, List.getD_eq_getElem?_getD, List.getElem?_eq_none hk2]

theorem foldl_set_upTo {α : Type} (g : Nat → α) (init : List α) :
    ∀ k : Nat, k ≤ init.length →
      (List.range k).foldl (fun l i => l.set i (g i)) init
        = (List.range k).map g ++ init.drop k := by
  intro k
  induction k with
  | zero => intro _; simp
  | succ k ih =>
    intro hk
    rw [List.range_succ, List.foldl_append, ih (by omega)]
    simp only [List.foldl_cons, List.foldl_nil, List.map_append, List.map_cons, List.map_nil]
    rw [List.set_append]
    simp only [List.length_map, List.length_range, Nat.lt_irrefl, if_false, Nat.sub_self]
    have hd : init.drop k = init[k] :: init.drop (k + 1) := by
      rw [List.drop_eq_getElem_cons (by omega)]
    rw [hd, List.set_cons_zero, List.append_assoc]
    rfl

theorem foldl_set_range {α : Type} (g : Nat → α) (init : List α) :
    (List.range init.length).foldl (fun l i => l.set i (g i)) init
      = (List.range init.length).map g := by
  rw [foldl_set_upTo g init init.length (Nat.le_refl _)]
  simp

theorem subMaterialNameOrEmpty_eq (MeshMat : Mtl) (slot : Nat) :
    subMaterialNameOrEmpty MeshMat slot = (MeshMat.GetSubMtl slot).getD "" := by
  unfold subMaterialNameOrEmpty
  by_cases hk : slot < MeshMat.NumSubMtls
  · simp only [hk, if_true]
    cases MeshMat.GetSubMtl slot <;> rfl
  · have hk2 : MeshMat.subMtls.length ≤ slot := Nat.le_of_not_lt hk
    simp [hk, Mtl.GetSubMtl, List.getD_eq_getElem?_getD, List.getElem?_eq_none hk2]

theorem faceMaterialStep_multi (mesh : MNMesh) (MeshMat : Mtl) (init FMN : List (Option String))
    (i : Nat) :
    faceMaterialStep mesh ⟨false, [], collectSubMatNames MeshMat, init⟩ FMN i
      = FMN.set i (some (subMaterialNameOrEmpty MeshMat (mesh.F i).material)) := by
  unfold faceMaterialStep
  simp only [Bool.not_false, if_true, lookup_collectSubMatNames, subMaterialNameOrEmpty_eq]
  cases hs : MeshMat.GetSubMtl (mesh.F i).material with
  | some x => simp
  | none =>
    by_cases hl : FMN.length > 0
    · simp [hl]
    · have : FMN = [] := by
        cases FMN with
        | nil => rfl
        | cons a b => simp at hl
      simp [this]

/-- Under a multi-material, `FaceMaterialNames` ends with one name per face. -/
theorem FaceMaterialNames_multi (mesh : MNMesh) (node : INode) (MeshMat : Mtl)
    (hmtl : node.mtl = some MeshMat) (hsub : 0 < MeshMat.NumSubMtls) :
    FaceMaterialNames (some node) mesh
      = mesh.f.map (fun F => some (subMaterialNameOrEmpty MeshMat F.material)) := by
  unfold FaceMaterialNames
  have hloc : lookUpMaterial (some node) mesh
      = ⟨false, [], collectSubMatNames MeshMat, List.replicate mesh.FNum none⟩ := by
    simp [lookUpMaterial, hmtl, hsub]
  rw [hloc]
  have hstep : (faceMaterialStep mesh
      ⟨false, [], collectSubMatNames MeshMat, List.replicate mesh.FNum none⟩)
      = (fun l i => l.set i (some (subMaterialNameOrEmpty MeshMat (mesh.F i).material))) := by
    funext l i
    exact faceMaterialStep_multi mesh MeshMat _ l i
  rw [hstep]
  have h := foldl_set_range
    (fun i => some (subMaterialNameOrEmpty MeshMat (mesh.F i).material))
    (List.replicate mesh.FNum (none : Option String))
  simp only [List.length_replicate] at h
  show (List.range mesh.FNum).foldl _ _ = _
  rw [h]
  conv_rhs => rw [← range_map_F mesh]
  simp [Function.comp_def]

/-! ## String attributes in the sequence of calls -/

theorem filter_string_materialPathCalls (cfg : Config) (SourceNode : Option INode)
    (mesh : MNMesh) :
    (materialPathCalls cfg SourceNode mesh).filter Call.isStringAttribute
      = materialPathCalls cfg SourceNode mesh := by
  unfold materialPathCalls
  split_ifs <;> simp [Call.isStringAttribute]

theorem filter_string_uvCalls (cfg : Config) (mesh : MNMesh) :
    (uvCalls cfg mesh).filter Call.isStringAttribute = [] := by
  rw [List.filter_eq_nil_iff]
  intro c hc
  obtain ⟨texMap, UVMap, _, _, _, h⟩ := mem_uvCalls cfg mesh c hc
  rcases h with h | h <;> simp [h, Call.isStringAttribute]

theorem filter_string_illuminationCalls (cfg : Config) (mesh : MNMesh) :
    (illuminationCalls cfg mesh).filter Call.isStringAttribute = [] := by
  unfold illuminationCalls
  split
  · rfl
  · split_ifs <;> simp [Call.isStringAttribute]

theorem filter_string_alphaCalls (cfg : Config) (mesh : MNMesh) :
    (alphaCalls cfg mesh).filter Call.isStringAttribute = [] := by
  unfold alphaCalls
  split
  · rfl
  · split_ifs <;> simp [Call.isStringAttribute]

theorem filter_string_cdCalls (cfg : Config) (mesh : MNMesh) :
    (cdCalls cfg mesh).filter Call.isStringAttribute = [] := by
  unfold cdCalls
  split
  · rfl
  · split_ifs <;> simp [Call.isStringAttribute]

theorem filter_string_softSelectionCalls (cfg : Config) (mesh : MNMesh) :
    (softSelectionCalls cfg mesh).filter Call.isStringAttribute = [] := by
  unfold softSelectionCalls
  split <;> simp [Call.isStringAttribute]

theorem filter_string_transformCalls (cfg : Config) (MaxNode : Option INode) :
    (transformCalls cfg MaxNode).filter Call.isStringAttribute = [] := by
  cases MaxNode <;> simp [transformCalls, Call.isStringAttribute]

/-- The string-attribute calls of one conversion are the calls of lines 202-211. -/
theorem filter_string_Build (cfg : Config) (host : HostFns) (SourceNode : Option INode)
    (rand1 rand2 : Nat) (mesh : MNMesh) (InputNodeName : String) (NodeTransform : List ℚ)
    (MaxNode : Option INode) :
    (BuildPolyGeometryForInputNode cfg host SourceNode rand1 rand2 mesh InputNodeName
        NodeTransform MaxNode).filter Call.isStringAttribute
      = materialPathCalls cfg SourceNode mesh := by
  unfold BuildPolyGeometryForInputNode
  simp only [List.filter_append, filter_string_materialPathCalls, filter_string_uvCalls,
    filter_string_illuminationCalls, filter_string_alphaCalls, filter_string_cdCalls,
    filter_string_softSelectionCalls, filter_string_transformCalls]
  simp [normalCalls, Call.isStringAttribute]

/-- C7, as stated, fails: under a material with two sub-material slots, a mesh of four
points and no face (`N = 0`) gets no material-path attribute at all, rather than one with
zero entries. -/
theorem C7_no_face_no_material_path :
    multiMaterialNode.mtl = some ⟨"multi", [some "brick", none]⟩
    ∧ FaceCount fourPointsNoFaces = 0
    ∧ materialPathCalls exampleConfig (some multiMaterialNode) fourPointsNoFaces = []
    ∧ (BuildPolyGeometryForInputNode exampleConfig exampleHost (some multiMaterialNode) 0 0
        fourPointsNoFaces "input" [] none).filter Call.isStringAttribute = [] := by
  refine ⟨rfl, rfl, by decide, ?_⟩
  rw [filter_string_Build]
  decide

/-- C7, amended. Under a material with one or more sub-material slots and a mesh with
`N ≥ 1` faces, the string-attribute calls of the conversion are one registration of the
material-path attribute with `N` elements and one upload of `N` entries, entry `i` being
the name of the sub-material at slot `F(i).material` when that slot is below the
sub-material count and holds a material, and the empty string otherwise; with `N = 0`
no material-path call is made. -/
theorem C7_multi_material_paths (cfg : Config) (host : HostFns) (node : INode) (MeshMat : Mtl)
    (rand1 rand2 : Nat) (mesh : MNMesh) (InputNodeName : String) (NodeTransform : List ℚ)
    (MaxNode : Option INode) (hmtl : node.mtl = some MeshMat)
    (hsub : 0 < MeshMat.NumSubMtls) :
    (mesh.f.map (fun F => some (subMaterialNameOrEmpty MeshMat F.material))).length
        = FaceCount mesh
    ∧ (BuildPolyGeometryForInputNode cfg host (some node) rand1 rand2 mesh InputNodeName
        NodeTransform MaxNode).filter Call.isStringAttribute
      = if FaceCount mesh = 0 then []
        else
          [.AddNewPrimitiveStringAttribute (FaceCount mesh) 1
              cfg.HEMAX_MATERIAL_PATH_ATTRIBUTE,
           .SendStringAttributeData cfg.HEMAX_MATERIAL_PATH_ATTRIBUTE
              (mesh.f.map (fun F => some (subMaterialNameOrEmpty MeshMat F.material)))
              (FaceCount mesh)] := by
  refine ⟨by simp [FaceCount, MNMesh.FNum], ?_⟩
  rw [filter_string_Build]
  have hloc : lookUpMaterial (some node) mesh
      = ⟨false, [], collectSubMatNames MeshMat, List.replicate mesh.FNum none⟩ := by
    simp [lookUpMaterial, hmtl, hsub]
  unfold materialPathCalls
  rw [FaceMaterialNames_multi mesh node MeshMat hmtl hsub, hloc]
  by_cases h0 : FaceCount mesh = 0
  · have : mesh.f = [] := List.length_eq_zero.mp h0
    simp [h0, this]
  · have : 0 < mesh.f.length := Nat.pos_of_ne_zero h0
    simp [h0, this]

/-- C7, amended, at the quad under the two-slot material: one entry, the name in slot 0. -/
theorem C7_multi_material_paths_witness :
    multiMaterialNode.mtl = some ⟨"multi", [some "brick", none]⟩
    ∧ 0 < (⟨"multi", [some "brick", none]⟩ : Mtl).NumSubMtls
    ∧ (BuildPolyGeometryForInputNode exampleConfig exampleHost (some multiMaterialNode) 0 0
        oneQuad "input" [] none).filter Call.isStringAttribute
      = [.AddNewPrimitiveStringAttribute 1 1 "material_path",
         .SendStringAttributeData "material_path" [some "brick"] 1] :=
  ⟨rfl, by decide,
   (C7_multi_material_paths exampleConfig exampleHost multiMaterialNode
      ⟨"multi", [some "brick", none]⟩ 0 0 oneQuad "input" [] none rfl (by decide)).2⟩

/-- C8, as stated, fails: under a material without sub-materials, a mesh of four points
and no face (`N = 0`) gets no material-path attribute at all, rather than one with zero
entries. -/
theorem C8_no_face_no_material_path :
    singleMaterialNode.mtl = some ⟨"steel", []⟩
    ∧ FaceCount fourPointsNoFaces = 0
    ∧ materialPathCalls exampleConfig (some singleMaterialNode) fourPointsNoFaces = []
    ∧ (BuildPolyGeometryForInputNode exampleConfig exampleHost (some singleMaterialNode) 0 0
        fourPointsNoFaces "input" [] none).filter Call.isStringAttribute = [] := by
  refine ⟨rfl, rfl, by decide, ?_⟩
  rw [filter_string_Build]
  decide

/-- C8, amended. Under a material with zero sub-materials and a mesh with `N ≥ 1` faces,
the string-attribute calls of the conversion are one registration of the material-path
primitive attribute with `N` elements and one upload of `N` entries, all of them the
material's name; with `N = 0` no material-path call is made. -/
theorem C8_single_material_path (cfg : Config) (host : HostFns) (node : INode) (MeshMat : Mtl)
    (rand1 rand2 : Nat) (mesh : MNMesh) (InputNodeName : String) (NodeTransform : List ℚ)
    (MaxNode : Option INode) (hmtl : node.mtl = some MeshMat)
    (hsub : MeshMat.NumSubMtls = 0) :
    (BuildPolyGeometryForInputNode cfg host (some node) rand1 rand2 mesh InputNodeName
        NodeTransform MaxNode).filter Call.isStringAttribute
      = if FaceCount mesh = 0 then []
        else
          [.AddNewPrimitiveStringAttribute (FaceCount mesh) 1
              cfg.HEMAX_MATERIAL_PATH_ATTRIBUTE,
           .SendStringAttributeData cfg.HEMAX_MATERIAL_PATH_ATTRIBUTE
              (List.replicate (FaceCount mesh) (some MeshMat.name)) (FaceCount mesh)] := by
  rw [filter_string_Build]
  have hloc : lookUpMaterial (some node) mesh
      = ⟨true, List.replicate mesh.FNum (some MeshMat.name), [], []⟩ := by
    simp [lookUpMaterial, hmtl, hsub]
  have hF : FaceMaterialNames (some node) mesh = [] := by
    unfold FaceMaterialNames
    rw [hloc]
    generalize List.range (FaceCount mesh) = l
    induction l with
    | nil => rfl
    | cons i rest ih => simpa [faceMaterialStep] using ih
  unfold materialPathCalls
  rw [hF, hloc]
  by_cases h0 : FaceCount mesh = 0
  · have h1 : mesh.FNum = 0 := h0
    simp [h0, h1]
  · have h1 : 0 < mesh.FNum := Nat.pos_of_ne_zero h0
    have h2 : ¬ mesh.FNum = 0 := h0
    simp [h1, h2, FaceCount]

/-- C8, amended, at the quad under the material without sub-materials: one entry, the
material's name. -/
theorem C8_single_material_path_witness :
    singleMaterialNode.mtl = some ⟨"steel", []⟩
    ∧ (⟨"steel", []⟩ : Mtl).NumSubMtls = 0
    ∧ (BuildPolyGeometryForInputNode exampleConfig exampleHost (some singleMaterialNode) 0 0
        oneQuad "input" [] none).filter Call.isStringAttribute
      = [.AddNewPrimitiveStringAttribute 1 1 "material_path",
         .SendStringAttributeData "material_path" [some "steel"] 1] :=
  ⟨rfl, rfl,
   C8_single_material_path exampleConfig exampleHost singleMaterialNode ⟨"steel", []⟩ 0 0
      oneQuad "input" [] none rfl rfl⟩

/-- C9. Every element of the alpha buffer, point-rate or corner-rate, is
`0.2126 * R + 0.7152 * G + 0.0722 * B` of the channel vertex it is read from: vertex `c` for
point `c`, the channel's vertex at its `F(f).tv[v]` for corner `(f, v)`. The map sends
`(1,0,0)` to `0.2126`, `(0,1,0)` to `0.7152`, `(0,0,1)` to `0.0722` and `(1,1,1)` to `1`, and
it is linear. -/
theorem C9_alpha_luminance (cfg : Config) (mesh : MNMesh) (AlphaMap : MNMap)
    (h : mesh.M cfg.HEMAX_MAPPING_CHANNEL_ALPHA = some AlphaMap) :
    (AlphaOwner cfg mesh = .POINT →
      AlphaArray cfg mesh
        = some ((List.range (VertCount mesh)).map (fun c =>
            some (0.2126 * (AlphaMap.MapData c).x + 0.7152 * (AlphaMap.MapData c).y
              + 0.0722 * (AlphaMap.MapData c).z))))
    ∧ (AlphaOwner cfg mesh = .VERTEX →
      AlphaArray cfg mesh
        = some ((cornerOrder mesh).map (fun fv =>
            some (0.2126 * (AlphaMap.atCorner fv).x + 0.7152 * (AlphaMap.atCorner fv).y
              + 0.0722 * (AlphaMap.atCorner fv).z))))
    ∧ (AlphaOwner cfg mesh = .INVALID → AlphaArray cfg mesh = none)
    ∧ ConvertedAlpha ⟨1, 0, 0⟩ = 0.2126
    ∧ ConvertedAlpha ⟨0, 1, 0⟩ = 0.7152
    ∧ ConvertedAlpha ⟨0, 0, 1⟩ = 0.0722
    ∧ ConvertedAlpha ⟨1, 1, 1⟩ = 1
    ∧ (∀ (a b : ℚ) (p q : Point3),
        ConvertedAlpha ⟨a * p.x + b * q.x, a * p.y + b * q.y, a * p.z + b * q.z⟩
          = a * ConvertedAlpha p + b * ConvertedAlpha q) := by
  have he := alphaChannel_eq cfg mesh AlphaMap h
  refine ⟨?_, ?_, ?_, ?_, ?_, ?_, ?_, ?_⟩
  · intro hown
    unfold AlphaOwner at hown
    unfold AlphaArray
    rw [he] at hown ⊢
    split_ifs at hown ⊢
    simp [ConvertedAlpha, Function.comp_def]
  · intro hown
    unfold AlphaOwner at hown
    unfold AlphaArray
    rw [he] at hown ⊢
    split_ifs at hown ⊢
    simp [ConvertedAlpha, Function.comp_def]
  · intro hown
    unfold AlphaOwner at hown
    unfold AlphaArray
    rw [he] at hown ⊢
    split_ifs at hown ⊢ <;> rfl
  · norm_num [ConvertedAlpha]
  · norm_num [ConvertedAlpha]
  · norm_num [ConvertedAlpha]
  · norm_num [ConvertedAlpha]
  · intro a b p q
    simp only [ConvertedAlpha]
    ring

/-- C9 at the quad whose alpha channel has one vertex per point (red, green, blue,
white): the alpha buffer is point-rate and holds the four luminances. -/
theorem C9_alpha_luminance_witness :
    quadWithAlpha.M exampleConfig.HEMAX_MAPPING_CHANNEL_ALPHA
        = some ⟨4, some [⟨1, 0, 0⟩, ⟨0, 1, 0⟩, ⟨0, 0, 1⟩, ⟨1, 1, 1⟩], [⟨4, [0, 1, 2, 3]⟩]⟩
    ∧ AlphaOwner exampleConfig quadWithAlpha = .POINT
    ∧ AlphaArray exampleConfig quadWithAlpha
        = some [some 0.2126, some 0.7152, some 0.0722, some 1] := by
  have hM : quadWithAlpha.M exampleConfig.HEMAX_MAPPING_CHANNEL_ALPHA
      = some ⟨4, some [⟨1, 0, 0⟩, ⟨0, 1, 0⟩, ⟨0, 0, 1⟩, ⟨1, 1, 1⟩], [⟨4, [0, 1, 2, 3]⟩]⟩ := rfl
  have hown : AlphaOwner exampleConfig quadWithAlpha = .POINT := by decide
  refine ⟨hM, hown, ?_⟩
  rw [(C9_alpha_luminance exampleConfig quadWithAlpha _ hM).1 hown]
  have hV : VertCount quadWithAlpha = 4 := rfl
  rw [hV]
  norm_num [List.range_succ, MNMap.MapData]

/-- A color, alpha or illumination channel that is present and has no vertex leaves its
array null and makes no call. -/
theorem zero_vertex_channel_skipped (cfg : Config) (mesh : MNMesh) :
    (∀ ColorMap, mesh.M cfg.HEMAX_MAPPING_CHANNEL_COLOR = some ColorMap → ColorMap.numv = 0 →
      CdArray cfg mesh = none ∧ cdCalls cfg mesh = [])
    ∧ (∀ AlphaMap, mesh.M cfg.HEMAX_MAPPING_CHANNEL_ALPHA = some AlphaMap →
      AlphaMap.numv = 0 → AlphaArray cfg mesh = none ∧ alphaCalls cfg mesh = [])
    ∧ (∀ IlluminationMap,
      mesh.M cfg.HEMAX_MAPPING_CHANNEL_ILLUMINATION = some IlluminationMap →
      IlluminationMap.numv = 0 →
      IlluminationArray cfg mesh = none ∧ illuminationCalls cfg mesh = []) := by
  refine ⟨?_, ?_, ?_⟩
  · intro ColorMap h h0
    have he := colorChannel_eq cfg mesh ColorMap h
    simp [cdCalls, CdArray, he, h0]
  · intro AlphaMap h h0
    have he := alphaChannel_eq cfg mesh AlphaMap h
    simp [alphaCalls, AlphaArray, he, h0]
  · intro IlluminationMap h h0
    have he := illuminationChannel_eq cfg mesh IlluminationMap h
    simp [illuminationCalls, IlluminationArray, he, h0]

/-- A UV channel whose vertex array is null makes no call. -/
theorem null_uv_channel_skipped (cfg : Config) (mesh : MNMesh) (texMap : Nat) (UVMap : MNMap)
    (h : mesh.M (texMap : Int) = some UVMap) (hv : UVMap.v = none) :
    uvChannelCalls cfg mesh texMap = [] := by
  simp [uvChannelCalls, h, hv]

/-- C10. At four points without a face whose UV channel 1 has an allocated vertex array and
`numv = 0`, the channel is not skipped: a UV attribute is registered and uploaded, with
count 0 and an empty buffer. -/
theorem C10_zero_vertex_uv_channel_emitted :
    fourPointsEmptyUV.M 1 = some ⟨0, some [], []⟩
    ∧ uvChannelCalls exampleConfig fourPointsEmptyUV 1
        = [.AddNewVertexAttribute 0 3 "uv", .SendFloatAttributeData "uv" [] 0]
    ∧ uvCalls exampleConfig fourPointsEmptyUV
        = [.AddNewVertexAttribute 0 3 "uv", .SendFloatAttributeData "uv" [] 0]
    ∧ Call.AddNewVertexAttribute 0 3 "uv"
        ∈ BuildPolyGeometryForInputNode exampleConfig exampleHost none 0 0 fourPointsEmptyUV
            "input" [] none := by
  have h1 : uvCalls exampleConfig fourPointsEmptyUV
      = [.AddNewVertexAttribute 0 3 "uv", .SendFloatAttributeData "uv" [] 0] := by decide
  refine ⟨rfl, by decide, h1, ?_⟩
  simp [BuildPolyGeometryForInputNode, h1]

theorem getD_map_deg {α : Type} (g : α → Nat) (l : List α) (d : α) (hd : g d = 0) (i : Nat) :
    (l.map g).getD i 0 = g (l.getD i d) := by
  simp only [List.getD_eq_getElem?_getD, List.getElem?_map]
  cases l[i]? <;> simp [hd]

/-- When the explicit-normal table has the face degrees of the mesh, it is visited in the
corner order of the mesh. -/
theorem spec_cornerOrder_eq (mesh : MNMesh) (spec : MNNormalSpec)
    (hdeg : spec.faces.map (fun F => F.deg) = mesh.f.map (fun F => F.deg)) :
    spec.cornerOrder = cornerOrder mesh := by
  have hlen : spec.GetNumFaces = mesh.FNum := by
    have := congrArg List.length hdeg
    simpa [MNNormalSpec.GetNumFaces, MNMesh.FNum] using this
  have hF : ∀ f, (spec.Face f).deg = (mesh.F f).deg := by
    intro f
    have h1 := getD_map_deg (fun F : MNNormalFace => F.deg) spec.faces ⟨0, []⟩ rfl f
    have h2 := getD_map_deg (fun F : MNFace => F.deg) mesh.f ⟨0, [], 0, 0⟩ rfl f
    rw [hdeg] at h1
    exact h1.symm.trans h2
  unfold MNNormalSpec.cornerOrder cornerOrder
  rw [hlen]
  simp only [hF]

/-- The explicit branch is aligned with the other corner-order buffers when the table has
the face degrees of the mesh: the normal in the slot of corner `(f, v)` is the table's
normal for `(f, v)`. -/
theorem explicitNormals_aligned (host : HostFns) (mesh : MNMesh) (spec : MNNormalSpec)
    (hdeg : spec.faces.map (fun F => F.deg) = mesh.f.map (fun F => F.deg)) :
    explicitNormals host spec
      = ((cornerOrder mesh).map
          (fun fv => remappedNormal (host.Normalize (spec.GetNormal fv.1 fv.2)))).flatten := by
  rw [explicitNormals_eq, spec_cornerOrder_eq mesh spec hdeg]

/-- Reversing the corners a corner loop visits gives back the host's corner order
`0, 1, ..., deg - 1`. -/
theorem reverse_cornersDown (deg : Nat) : (cornersDown deg).reverse = List.range deg := by
  simp [cornersDown]

/-! ## The statements of C1, C2 and C5 at concrete inputs -/

/-- C1 at the quad: every face lists `deg` indices, and the buffer is `3, 2, 1, 0`. -/
theorem C1_vertex_index_buffer_witness :
    (∀ F ∈ oneQuad.f, F.vtx.length = F.deg)
    ∧ VertIndexArray oneQuad = [some 3, some 2, some 1, some 0] :=
  ⟨by decide, (C1_vertex_index_buffer oneQuad).2.2.2 (by decide)⟩

/-- C2 at the quad with a two-vertex color channel: the channel is corner-rate and its
buffer has `3 * 4` numbers. -/
theorem C2_corner_count_witness :
    CdOwner exampleConfig quadCornerColor = .VERTEX
    ∧ ∃ vals : List ℚ, vals.length = 3 * VertIndexCount quadCornerColor
        ∧ CdArray exampleConfig quadCornerColor = some (vals.map some)
        ∧ cdCalls exampleConfig quadCornerColor
          = [.AddNewVertexAttribute (VertIndexCount quadCornerColor) 3
                exampleConfig.HEMAX_COLOR_ATTRIBUTE,
             .SendFloatAttributeData exampleConfig.HEMAX_COLOR_ATTRIBUTE (vals.map some)
                (VertIndexCount quadCornerColor)] :=
  ⟨by decide,
   (C2_corner_count exampleConfig exampleHost none 0 0 quadCornerColor "input" [] none).2.2.2.2.1
     (by decide)⟩

/-- C5, amended, at the quad with a two-vertex color channel: 4 points, 4 corners, `L = 2`
is corner-rate. -/
theorem C5_ownership_classification_witness :
    quadCornerColor.M exampleConfig.HEMAX_MAPPING_CHANNEL_COLOR
        = some ⟨2, some [⟨1, 0, 0⟩, ⟨0, 1, 0⟩], [⟨4, [0, 1, 0, 1]⟩]⟩
    ∧ ∃ arr, cdCalls exampleConfig quadCornerColor
          = emissionFor quadCornerColor (CdOwner exampleConfig quadCornerColor) 3
              exampleConfig.HEMAX_COLOR_ATTRIBUTE arr
        ∧ CdOwner exampleConfig quadCornerColor
          = ownershipGuarded 2 (VertCount quadCornerColor) (VertIndexCount quadCornerColor) :=
  ⟨rfl, (C5_ownership_classification exampleConfig quadCornerColor).1 _ rfl⟩

/-! ## Positions -/

theorem PointStores_eq (s : ℚ) (mesh : MNMesh) :
    PointStores s mesh
      = List.enumFrom 0 ((mesh.v.map (fun p => (remapPosition s p).xyz)).flatten) := by
  unfold PointStores
  rw [range_map_triple]
  congr 1
  have h := range_map_getD mesh.v ⟨0, 0, 0⟩
  conv_rhs => rw [← h]
  simp [VertCount, MNMesh.VNum, Function.comp_def, remapPosition, Point3.xyz]

theorem PointArray_eq (s : ℚ) (mesh : MNMesh) :
    PointArray s mesh
      = ((mesh.v.map (fun p => (remapPosition s p).xyz)).flatten).map some := by
  unfold PointArray
  rw [PointStores_eq, applyStores_alloc _ _ (by
    rw [length_flatten_const 3 (fun p : Point3 => (remapPosition s p).xyz) (fun _ => rfl)]
    simp [VertCount, MNMesh.VNum, Nat.mul_comm])]

theorem getElem?_flatten_xyz {α : Type} (g : α → Point3) (l : List α) (i : Nat) (a : α)
    (hi : l[i]? = some a) :
    ((l.map (fun p => (g p).xyz)).flatten)[3 * i]? = some (g a).x
    ∧ ((l.map (fun p => (g p).xyz)).flatten)[3 * i + 1]? = some (g a).y
    ∧ ((l.map (fun p => (g p).xyz)).flatten)[3 * i + 2]? = some (g a).z := by
  have hget : (l.map (fun p => (g p).xyz)).getD i [] = (g a).xyz := by
    simp [List.getD_eq_getElem?_getD, hi]
  have hoff : (((l.map (fun p => (g p).xyz)).take i).map List.length).sum = 3 * i := by
    have hlt : i < l.length := by
      rcases Nat.lt_or_ge i l.length with h | h
      · exact h
      · rw [List.getElem?_eq_none h] at hi; cases hi
    rw [← List.map_take, List.map_map]
    have : (List.length ∘ fun p => (g p).xyz) = fun _ : α => 3 := by
      funext p; rfl
    rw [this]
    simp [List.length_take, Nat.min_eq_left (Nat.le_of_lt hlt), Nat.mul_comm]
  have h0 := getElem?_flatten_offset (l.map (fun p => (g p).xyz)) i 0
    (by rw [hget]; simp [Point3.xyz])
  have h1 := getElem?_flatten_offset (l.map (fun p => (g p).xyz)) i 1
    (by rw [hget]; simp [Point3.xyz])
  have h2 := getElem?_flatten_offset (l.map (fun p => (g p).xyz)) i 2
    (by rw [hget]; simp [Point3.xyz])
  rw [hget, hoff] at h0 h1 h2
  exact ⟨by simpa [Point3.xyz] using h0, by simpa [Point3.xyz] using h1,
    by simpa [Point3.xyz] using h2⟩

theorem readTriples_flatten_xyz (l : List Point3) :
    readTriples (((l.map (fun p => p.xyz)).flatten).map some) = l := by
  induction l with
  | nil => rfl
  | cons p rest ih =>
    exact congrArg (List.cons p) ih

/-- C11. The position buffer has exactly `3 * pointCount` entries, all written; it lists the
points in their order, and for point `i` at `(x, y, z)` the entries `3i`, `3i + 1`, `3i + 2`
are `x * s`, `z * s`, `-(y * s)`; this buffer is what is uploaded as the position
attribute, registered with `pointCount` elements of 3 components. -/
theorem C11_position_buffer (cfg : Config) (host : HostFns) (SourceNode : Option INode)
    (rand1 rand2 : Nat) (mesh : MNMesh) (InputNodeName : String) (NodeTransform : List ℚ)
    (MaxNode : Option INode) :
    (PointArray cfg.ScaleConversion mesh).length = 3 * VertCount mesh
    ∧ PointArray cfg.ScaleConversion mesh
        = ((mesh.v.map (fun p =>
            [p.x * cfg.ScaleConversion, p.z * cfg.ScaleConversion,
             -(p.y * cfg.ScaleConversion)])).flatten).map some
    ∧ (∀ i p, mesh.v[i]? = some p →
        (PointArray cfg.ScaleConversion mesh)[3 * i]? = some (some (p.x * cfg.ScaleConversion))
        ∧ (PointArray cfg.ScaleConversion mesh)[3 * i + 1]?
            = some (some (p.z * cfg.ScaleConversion))
        ∧ (PointArray cfg.ScaleConversion mesh)[3 * i + 2]?
            = some (some (-(p.y * cfg.ScaleConversion))))
    ∧ (BuildPolyGeometryForInputNode cfg host SourceNode rand1 rand2 mesh InputNodeName
        NodeTransform MaxNode)[3]?
        = some (.AddNewPointAttribute (VertCount mesh) 3 cfg.HEMAX_POSITION_ATTRIBUTE)
    ∧ (BuildPolyGeometryForInputNode cfg host SourceNode rand1 rand2 mesh InputNodeName
        NodeTransform MaxNode)[4]?
        = some (.SendPointAttributeData (PointArray cfg.ScaleConversion mesh)
            (VertIndexArray mesh) (FaceCountArray mesh) (FaceCount mesh) (VertIndexCount mesh)
            (VertCount mesh) cfg.HEMAX_POSITION_ATTRIBUTE) := by
  refine ⟨?_, ?_, ?_, ?_, ?_⟩
  · rw [PointArray_eq, List.length_map,
      length_flatten_const 3 (fun p : Point3 => (remapPosition cfg.ScaleConversion p).xyz)
        (fun _ => rfl)]
    rfl
  · rw [PointArray_eq]
    simp [remapPosition, Point3.xyz]
  · intro i p hp
    have h := getElem?_flatten_xyz (remapPosition cfg.ScaleConversion) mesh.v i p hp
    rw [PointArray_eq]
    simp only [List.getElem?_map, h.1, h.2.1, h.2.2, Option.map_some']
    simp [remapPosition]
  · simp [BuildPolyGeometryForInputNode]
  · simp [BuildPolyGeometryForInputNode]

/-- C11 at two points with unit scale 1: `(1, 2, 3)` and `(-4, 5, 6)` become
`1, 3, -2, -4, 6, -5`. -/
theorem C11_position_buffer_witness :
    twoPoints.v[1]? = some ⟨-4, 5, 6⟩
    ∧ (PointArray exampleConfig.ScaleConversion twoPoints)[3 * 1]? = some (some (-4 : ℚ))
    ∧ (PointArray exampleConfig.ScaleConversion twoPoints)[3 * 1 + 1]? = some (some (6 : ℚ))
    ∧ (PointArray exampleConfig.ScaleConversion twoPoints)[3 * 1 + 2]? = some (some (-5 : ℚ)) := by
  have h := (C11_position_buffer exampleConfig exampleHost none 0 0 twoPoints "input" []
    none).2.2.1 1 ⟨-4, 5, 6⟩ rfl
  refine ⟨rfl, ?_, ?_, ?_⟩
  · rw [h.1]; norm_num [exampleConfig]
  · rw [h.2.1]; norm_num [exampleConfig]
  · rw [h.2.2]; norm_num [exampleConfig]

/-- C12. For every scale `s > 0`, reading the uploaded position buffer back three cells at
a time gives each point `(x, y, z)` as `(x * s, z * s, -y * s)`, and applying
`(x', y', z') → (x'/s, -z'/s, y'/s)` to these recovers the points of the mesh exactly. -/
theorem C12_axis_remap_round_trip (s : ℚ) (mesh : MNMesh) (hs : 0 < s) :
    readTriples (PointArray s mesh) = mesh.v.map (remapPosition s)
    ∧ (∀ p : Point3, inverseRemapPosition s (remapPosition s p) = p)
    ∧ (readTriples (PointArray s mesh)).map (inverseRemapPosition s) = mesh.v := by
  have hne : s ≠ 0 := ne_of_gt hs
  have hinv : ∀ p : Point3, inverseRemapPosition s (remapPosition s p) = p := by
    intro p
    cases p with
    | mk x y z =>
      simp only [inverseRemapPosition, remapPosition]
      congr 1
      · field_simp
      · field_simp
      · field_simp
  have hread : readTriples (PointArray s mesh) = mesh.v.map (remapPosition s) := by
    rw [PointArray_eq]
    have h := readTriples_flatten_xyz (mesh.v.map (remapPosition s))
    rw [List.map_map] at h
    exact h
  refine ⟨hread, hinv, ?_⟩
  rw [hread, List.map_map]
  conv_rhs => rw [← List.map_id mesh.v]
  exact List.map_congr_left (fun p _ => hinv p)

/-- C12 at two points with scale 2. -/
theorem C12_axis_remap_round_trip_witness :
    (0 : ℚ) < 2
    ∧ (readTriples (PointArray 2 twoPoints)).map (inverseRemapPosition 2)
        = [⟨1, 2, 3⟩, ⟨-4, 5, 6⟩] :=
  ⟨by norm_num, (C12_axis_remap_round_trip 2 twoPoints (by norm_num)).2.2⟩

/-- Without a source node, or with a source node that has no material, nothing is put
in `FaceMaterialNames`. -/
theorem FaceMaterialNames_no_material (SourceNode : Option INode) (mesh : MNMesh)
    (h : SourceNode = none ∨ ∃ node, SourceNode = some node ∧ node.mtl = none) :
    lookUpMaterial SourceNode mesh = ⟨false, [], [], []⟩
    ∧ FaceMaterialNames SourceNode mesh = [] := by
  have hloc : lookUpMaterial SourceNode mesh = ⟨false, [], [], []⟩ := by
    rcases h with h | ⟨node, h, hm⟩
    · subst h; rfl
    · subst h; simp [lookUpMaterial, hm]
  refine ⟨hloc, ?_⟩
  unfold FaceMaterialNames
  rw [hloc]
  generalize List.range (FaceCount mesh) = l
  induction l with
  | nil => rfl
  | cons i rest ih => simpa [faceMaterialStep] using ih

/-- C13. If the source node is absent or has no material, the conversion makes no
material-path call, and registers or uploads no string attribute at all, whatever the
faces of the mesh and their material slots. -/
theorem C13_no_material_no_path (cfg : Config) (host : HostFns) (SourceNode : Option INode)
    (rand1 rand2 : Nat) (mesh : MNMesh) (InputNodeName : String) (NodeTransform : List ℚ)
    (MaxNode : Option INode)
    (h : SourceNode = none ∨ ∃ node, SourceNode = some node ∧ node.mtl = none) :
    materialPathCalls cfg SourceNode mesh = []
    ∧ (BuildPolyGeometryForInputNode cfg host SourceNode rand1 rand2 mesh InputNodeName
        NodeTransform MaxNode).filter Call.isStringAttribute = [] := by
  have hm : materialPathCalls cfg SourceNode mesh = [] := by
    have h2 := FaceMaterialNames_no_material SourceNode mesh h
    unfold materialPathCalls
    rw [h2.1, h2.2]
    simp
  exact ⟨hm, by rw [filter_string_Build, hm]⟩

/-- C13 at the quad, once without a source node and once under a node without material. -/
theorem C13_no_material_no_path_witness :
    ((none : Option INode) = none
        ∨ ∃ node, (none : Option INode) = some node ∧ node.mtl = none)
    ∧ (BuildPolyGeometryForInputNode exampleConfig exampleHost none 0 0 oneQuad "input" []
        none).filter Call.isStringAttribute = [] :=
  ⟨Or.inl rfl,
   (C13_no_material_no_path exampleConfig exampleHost none 0 0 oneQuad "input" [] none
      (Or.inl rfl)).2⟩

/-! ## Order of the calls, and the subscripts of `VertexNormals` -/

/-- C16. In every conversion the call that marshals the node-name detail attribute,
`MarshalNodeNameDetailAttribute`, is the second call and `AddNewPart` the third: the
node-name attribute is marshalled before the topology is declared. Every attribute call
the function makes itself (`AddNew...Attribute`, `Send...AttributeData`) comes after
`AddNewPart`. -/
theorem C16_node_name_marshalled_before_part (cfg : Config) (host : HostFns)
    (SourceNode : Option INode) (rand1 rand2 : Nat) (mesh : MNMesh) (InputNodeName : String)
    (NodeTransform : List ℚ) (MaxNode : Option INode) :
    (BuildPolyGeometryForInputNode cfg host SourceNode rand1 rand2 mesh InputNodeName
        NodeTransform MaxNode)[1]? = some .MarshalNodeNameDetailAttribute
    ∧ (BuildPolyGeometryForInputNode cfg host SourceNode rand1 rand2 mesh InputNodeName
        NodeTransform MaxNode)[2]?
        = some (.AddNewPart (FaceCount mesh) (VertIndexCount mesh) (VertCount mesh))
    ∧ (∀ k c, (BuildPolyGeometryForInputNode cfg host SourceNode rand1 rand2 mesh
        InputNodeName NodeTransform MaxNode)[k]? = some c → c.isAttributeCall = true →
        2 < k) := by
  refine ⟨by simp [BuildPolyGeometryForInputNode], by simp [BuildPolyGeometryForInputNode],
    ?_⟩
  intro k c hk hc
  by_contra hlt
  have hk2 : k = 0 ∨ k = 1 ∨ k = 2 := by omega
  rcases hk2 with h | h | h <;> subst h <;>
    simp [BuildPolyGeometryForInputNode] at hk <;> subst hk <;>
    simp [Call.isAttributeCall, Call.registers, Call.uploads] at hc

/-- C19. At five points with one triangle over points 0, 1 and 4, every face index is a
valid point index, the table `VertexNormals` has 3 entries (the corner count), and the
first subscript used is 4, outside the table. -/
theorem C19_vertex_normals_sized_by_corners :
    VertCount triangleWithLoosePoints = 5
    ∧ (∀ fv ∈ cornerOrder triangleWithLoosePoints,
        (triangleWithLoosePoints.F fv.1).vtxAt fv.2 < VertCount triangleWithLoosePoints)
    ∧ VertIndexCount triangleWithLoosePoints = 3
    ∧ (freshVertexNormals triangleWithLoosePoints).length = 3
    ∧ VertexNormalsSubscripts triangleWithLoosePoints = [4, 1, 0]
    ∧ ¬ (4 < (freshVertexNormals triangleWithLoosePoints).length) := by
  decide

theorem VertexNormalsSubscripts_eq (mesh : MNMesh) :
    VertexNormalsSubscripts mesh
      = (cornerOrder mesh).map (fun fv => (mesh.F fv.1).vtxAt fv.2) := by
  unfold VertexNormalsSubscripts
  rw [forCorners_eq_foldl]
  have h := foldl_push (fun fv : Nat × Nat => [(mesh.F fv.1).vtxAt fv.2]) (cornerOrder mesh) []
  rw [h]
  simp only [List.nil_append]
  induction cornerOrder mesh with
  | nil => rfl
  | cons x rest ih => simp [ih]

/-- The subscripts of `VertexNormals` stay inside the table when the face indices are valid
point indices and the mesh has at least as many corners as points. -/
theorem VertexNormalsSubscripts_in_bounds (mesh : MNMesh)
    (hvalid : ∀ fv ∈ cornerOrder mesh, (mesh.F fv.1).vtxAt fv.2 < VertCount mesh)
    (hcount : VertCount mesh ≤ VertIndexCount mesh) :
    ∀ i ∈ VertexNormalsSubscripts mesh, i < (freshVertexNormals mesh).length := by
  intro i hi
  rw [VertexNormalsSubscripts_eq, List.mem_map] at hi
  obtain ⟨fv, hfv, rfl⟩ := hi
  have := hvalid fv hfv
  simp only [freshVertexNormals, List.length_replicate]
  omega

/-! ## Color, alpha and illumination compared -/

theorem readTriples_pointRateXYZ (mesh : MNMesh) (map : MNMap) :
    readTriples ((pointRateXYZ mesh map).map some)
      = (List.range (VertCount mesh)).map map.MapData := by
  unfold pointRateXYZ
  have h := readTriples_flatten_xyz ((List.range (VertCount mesh)).map map.MapData)
  rw [List.map_map] at h
  exact h

theorem readTriples_cornerRateXYZ (mesh : MNMesh) (map : MNMap) :
    readTriples ((cornerRateXYZ mesh map).map some) = (cornerOrder mesh).map map.atCorner := by
  unfold cornerRateXYZ
  have h := readTriples_flatten_xyz ((cornerOrder mesh).map map.atCorner)
  rw [List.map_map] at h
  exact h

/-- C17. When the color, alpha and illumination channel numbers give the same channel
data (or all give none), the three paths choose the same ownership class; the illumination
buffer equals the color buffer; and there is one list of channel vertices, of which the
color buffer lists the components, three per element, and the alpha buffer the luminances
`0.2126 * R + 0.7152 * G + 0.0722 * B`, one per element, so that both have the same element
count and the `k`-th alpha element is the luminance of the `k`-th color triple; the calls
of the alpha and color paths are those of the same class. -/
theorem C17_alpha_and_illumination_like_color (cfg : Config) (mesh : MNMesh)
    (ha : mesh.M cfg.HEMAX_MAPPING_CHANNEL_ALPHA = mesh.M cfg.HEMAX_MAPPING_CHANNEL_COLOR)
    (hi : mesh.M cfg.HEMAX_MAPPING_CHANNEL_ILLUMINATION
        = mesh.M cfg.HEMAX_MAPPING_CHANNEL_COLOR) :
    AlphaOwner cfg mesh = CdOwner cfg mesh
    ∧ IlluminationOwner cfg mesh = CdOwner cfg mesh
    ∧ IlluminationArray cfg mesh = CdArray cfg mesh
    ∧ (∃ src : Option (List Point3),
        CdArray cfg mesh = src.map (fun l => ((l.map (fun p => [p.x, p.y, p.z])).flatten).map some)
        ∧ AlphaArray cfg mesh
          = src.map (fun l =>
              l.map (fun p => some (0.2126 * p.x + 0.7152 * p.y + 0.0722 * p.z))))
    ∧ (∃ arr, cdCalls cfg mesh
        = emissionFor mesh (CdOwner cfg mesh) 3 cfg.HEMAX_COLOR_ATTRIBUTE arr)
    ∧ (∃ arr, alphaCalls cfg mesh
        = emissionFor mesh (CdOwner cfg mesh) 1 cfg.HEMAX_ALPHA_ATTRIBUTE arr) := by
  cases hM : mesh.M cfg.HEMAX_MAPPING_CHANNEL_COLOR with
  | none =>
    rw [hM] at ha hi
    have h1 := colorChannel_absent cfg mesh hM
    have h2 := alphaChannel_absent cfg mesh ha
    have h3 := illuminationChannel_absent cfg mesh hi
    refine ⟨by simp [AlphaOwner, CdOwner, h1, h2], by simp [IlluminationOwner, CdOwner, h1, h3],
      by simp [IlluminationArray, CdArray, h1, h3], ⟨none, ?_, ?_⟩, ⟨[], ?_⟩, ⟨[], ?_⟩⟩
    · simp [CdArray, h1]
    · simp [AlphaArray, h2]
    · simp [cdCalls, CdArray, CdOwner, h1, emissionFor]
    · simp [alphaCalls, AlphaArray, CdOwner, h1, h2, emissionFor]
  | some C =>
    rw [hM] at ha hi
    have h1 := colorChannel_eq cfg mesh C hM
    have h2 := alphaChannel_eq cfg mesh C ha
    have h3 := illuminationChannel_eq cfg mesh C hi
    have hA : AlphaOwner cfg mesh = CdOwner cfg mesh := by
      unfold AlphaOwner CdOwner
      rw [h1, h2]
      split_ifs <;> rfl
    obtain ⟨arrA, hcA, _⟩ := ownership_of_alphaChannel cfg mesh C ha
    obtain ⟨arrC, hcC, _⟩ := ownership_of_colorChannel cfg mesh C hM
    refine ⟨hA, ?_, ?_, ?_, ⟨arrC, hcC⟩, ⟨arrA, by rw [hcA, hA]⟩⟩
    · unfold IlluminationOwner CdOwner
      rw [h1, h3]
    · unfold IlluminationArray CdArray
      rw [h1, h3]
    · unfold CdArray AlphaArray
      rw [h1, h2]
      by_cases h0 : C.numv = 0
      · exact ⟨none, by simp [h0], by simp [h0]⟩
      · by_cases hp : C.numv = VertCount mesh
        · have h0' : ¬ VertCount mesh = 0 := by rw [← hp]; exact h0
          refine ⟨some ((List.range (VertCount mesh)).map C.MapData), ?_, ?_⟩
          · simp [h0', hp, pointRateXYZ, Point3.xyz, Function.comp_def]
          · simp [h0', hp, ConvertedAlpha, Function.comp_def]
        · by_cases hc : C.numv ≤ VertIndexCount mesh
          · refine ⟨some ((cornerOrder mesh).map C.atCorner), ?_, ?_⟩
            · simp [h0, hp, hc, cornerRateXYZ, Point3.xyz, Function.comp_def]
            · simp [h0, hp, hc, ConvertedAlpha, Function.comp_def]
          · exact ⟨none, by simp [h0, hp, hc], by simp [h0, hp, hc]⟩

/-- C17 at the quad whose three channel numbers give one two-vertex channel: all three
paths are corner-rate and the illumination buffer is the color buffer. -/
theorem C17_alpha_and_illumination_like_color_witness :
    quadSharedChannel.M exampleConfig.HEMAX_MAPPING_CHANNEL_ALPHA
        = quadSharedChannel.M exampleConfig.HEMAX_MAPPING_CHANNEL_COLOR
    ∧ quadSharedChannel.M exampleConfig.HEMAX_MAPPING_CHANNEL_ILLUMINATION
        = quadSharedChannel.M exampleConfig.HEMAX_MAPPING_CHANNEL_COLOR
    ∧ CdOwner exampleConfig quadSharedChannel = .VERTEX
    ∧ AlphaOwner exampleConfig quadSharedChannel = CdOwner exampleConfig quadSharedChannel
    ∧ IlluminationArray exampleConfig quadSharedChannel
        = CdArray exampleConfig quadSharedChannel :=
  ⟨rfl, rfl, by decide,
   (C17_alpha_and_illumination_like_color exampleConfig quadSharedChannel rfl rfl).1,
   (C17_alpha_and_illumination_like_color exampleConfig quadSharedChannel rfl rfl).2.2.1⟩

/-- C20, as stated, fails: the quad has 4 points and a color channel of 4 vertices, so
the channel is emitted point-rate, vertex `c` for point `c`; corner 0 of the face is point 0
and gets red through the point attribute, while the channel itself gives that corner its
vertex `tv[0] = 1`, green. -/
theorem C20_point_rate_ignores_channel_indices :
    quadCrossedColors.M exampleConfig.HEMAX_MAPPING_CHANNEL_COLOR
        = some ⟨4, some [⟨1, 0, 0⟩, ⟨0, 1, 0⟩, ⟨0, 0, 1⟩, ⟨1, 1, 1⟩], [⟨4, [1, 0, 3, 2]⟩]⟩
    ∧ VertCount quadCrossedColors = 4
    ∧ CdOwner exampleConfig quadCrossedColors = .POINT
    ∧ (quadCrossedColors.F 0).vtxAt 0 = 0
    ∧ ((CdArray exampleConfig quadCrossedColors).map readTriples)
        = some [⟨1, 0, 0⟩, ⟨0, 1, 0⟩, ⟨0, 0, 1⟩, ⟨1, 1, 1⟩]
    ∧ (⟨4, some [⟨1, 0, 0⟩, ⟨0, 1, 0⟩, ⟨0, 0, 1⟩, ⟨1, 1, 1⟩], [⟨4, [1, 0, 3, 2]⟩]⟩ : MNMap).atCorner
        (0, 0) = ⟨0, 1, 0⟩ := by
  decide

/-- C20, amended. For a color, alpha or illumination channel whose vertex count equals the
point count, and for every face `f` and local corner `v` whose point index `F(f).vtx[v]` is
a valid point index and equals the channel's own index `Map.F(f).tv[v]`, the channel is
emitted point-rate and the entry of the point attribute at point `F(f).vtx[v]` is the value
the channel gives to that corner: its vertex at `tv[v]` for color and illumination, the
luminance of that vertex for alpha. -/
theorem C20_point_rate_where_indices_agree (cfg : Config) (mesh : MNMesh) (f v : Nat)
    (hv : (mesh.F f).vtxAt v < VertCount mesh) :
    (∀ ColorMap, mesh.M cfg.HEMAX_MAPPING_CHANNEL_COLOR = some ColorMap →
      ColorMap.numv = VertCount mesh → (ColorMap.F f).tvAt v = (mesh.F f).vtxAt v →
      CdOwner cfg mesh = .POINT
      ∧ ∃ arr, CdArray cfg mesh = some arr
        ∧ (readTriples arr)[(mesh.F f).vtxAt v]? = some (ColorMap.atCorner (f, v)))
    ∧ (∀ AlphaMap, mesh.M cfg.HEMAX_MAPPING_CHANNEL_ALPHA = some AlphaMap →
      AlphaMap.numv = VertCount mesh → (AlphaMap.F f).tvAt v = (mesh.F f).vtxAt v →
      AlphaOwner cfg mesh = .POINT
      ∧ ∃ arr, AlphaArray cfg mesh = some arr
        ∧ arr[(mesh.F f).vtxAt v]? = some (some (ConvertedAlpha (AlphaMap.atCorner (f, v)))))
    ∧ (∀ IlluminationMap,
      mesh.M cfg.HEMAX_MAPPING_CHANNEL_ILLUMINATION = some IlluminationMap →
      IlluminationMap.numv = VertCount mesh →
      (IlluminationMap.F f).tvAt v = (mesh.F f).vtxAt v →
      IlluminationOwner cfg mesh = .POINT
      ∧ ∃ arr, IlluminationArray cfg mesh = some arr
        ∧ (readTriples arr)[(mesh.F f).vtxAt v]? = some (IlluminationMap.atCorner (f, v))) := by
  have h0 : ¬ VertCount mesh = 0 := by omega
  have hr : (List.range (VertCount mesh))[(mesh.F f).vtxAt v]? = some ((mesh.F f).vtxAt v) :=
    List.getElem?_range hv
  refine ⟨?_, ?_, ?_⟩
  · intro ColorMap hM hn htv
    have he := colorChannel_eq cfg mesh ColorMap hM
    refine ⟨by simp [CdOwner, he, hn, h0], (pointRateXYZ mesh ColorMap).map some,
      by simp [CdArray, he, hn, h0], ?_⟩
    rw [readTriples_pointRateXYZ, List.getElem?_map, hr]
    simp [MNMap.atCorner, htv]
  · intro AlphaMap hM hn htv
    have he := alphaChannel_eq cfg mesh AlphaMap hM
    refine ⟨by simp [AlphaOwner, he, hn, h0],
      ((List.range (VertCount mesh)).map (fun c => ConvertedAlpha (AlphaMap.MapData c))).map
        some,
      by simp [AlphaArray, he, hn, h0], ?_⟩
    rw [List.getElem?_map, List.getElem?_map, hr]
    simp [MNMap.atCorner, htv]
  · intro IlluminationMap hM hn htv
    have he := illuminationChannel_eq cfg mesh IlluminationMap hM
    refine ⟨by simp [IlluminationOwner, he, hn, h0],
      (pointRateXYZ mesh IlluminationMap).map some,
      by simp [IlluminationArray, he, hn, h0], ?_⟩
    rw [readTriples_pointRateXYZ, List.getElem?_map, hr]
    simp [MNMap.atCorner, htv]

/-- C20, amended, at the quad whose color channel uses the indices of the points: corner 2
of the face is point 2 and sees blue both ways. -/
theorem C20_point_rate_where_indices_agree_witness :
    (quadPointColors.F 0).vtxAt 2 < VertCount quadPointColors
    ∧ CdOwner exampleConfig quadPointColors = .POINT
    ∧ ∃ arr, CdArray exampleConfig quadPointColors = some arr
        ∧ (readTriples arr)[(quadPointColors.F 0).vtxAt 2]?
          = some ((⟨4, some [⟨1, 0, 0⟩, ⟨0, 1, 0⟩, ⟨0, 0, 1⟩, ⟨1, 1, 1⟩],
              [⟨4, [0, 1, 2, 3]⟩]⟩ : MNMap).atCorner (0, 2)) :=
  ⟨by decide,
   (C20_point_rate_where_indices_agree exampleConfig quadPointColors 0 2 (by decide)).1
      ⟨4, some [⟨1, 0, 0⟩, ⟨0, 1, 0⟩, ⟨0, 0, 1⟩, ⟨1, 1, 1⟩], [⟨4, [0, 1, 2, 3]⟩]⟩ rfl rfl rfl⟩

/-! ## Decimal names -/

theorem AddNormal_fresh (n : Point3) (s : Nat) :
    VertexNormal.AddNormal n s VertexNormal.fresh = [⟨n, s, true⟩] := by
  cases n with
  | mk x y z => simp [VertexNormal.AddNormal, VertexNormal.fresh, Point3.add]

theorem GetNormal_single (n : Point3) (s t : Nat) :
    VertexNormal.GetNormal t [⟨n, s, true⟩] = n := by
  simp [VertexNormal.GetNormal]

theorem accumulate_quad (host : HostFns) (p0 p1 p2 p3 : Point3) (a b c d : Nat)
    (hnd : [a, b, c, d].Nodup) (ha : a < 4) (hb : b < 4) (hc : c < 4) (hd : d < 4) :
    accumulateNormals host (quadOver p0 p1 p2 p3 a b c d)
      = (List.replicate 4 [⟨host.GetFaceNormal 0, 1, true⟩], []) := by
  simp only [accumulateNormals, forCorners, quadOver, MNMesh.FNum, MNMesh.F, cornersDown,
    accumulateBody, freshVertexNormals, VertIndexCount, FaceCount, MNFace.vtxAt]
  interval_cases a <;> interval_cases b <;> interval_cases c <;> interval_cases d <;>
    first
    | (exfalso; revert hnd; decide)
    | simp [List.range_succ, AddNormal_fresh]

theorem synthesised_quad (host : HostFns) (p0 p1 p2 p3 : Point3) (a b c d : Nat)
    (hnd : [a, b, c, d].Nodup) (ha : a < 4) (hb : b < 4) (hc : c < 4) (hd : d < 4) :
    synthesisedNormals host (quadOver p0 p1 p2 p3 a b c d)
      = (List.replicate 4
          (remappedNormal (host.Normalize (host.GetFaceNormal 0)))).flatten := by
  unfold synthesisedNormals
  rw [accumulate_quad host p0 p1 p2 p3 a b c d hnd ha hb hc hd]
  generalize hT : List.replicate 4 [(⟨host.GetFaceNormal 0, 1, true⟩ : VertexNormalNode)] = T
  have hget : ∀ k, k < 4 → T[k]?.getD [] = [⟨host.GetFaceNormal 0, 1, true⟩] := by
    intro k hk
    subst hT
    rw [List.getElem?_replicate, if_pos hk]
    rfl
  simp [forCorners, quadOver, MNMesh.FNum, MNMesh.F, cornersDown, List.range_succ,
    readBackBody, MNFace.vtxAt, hget a ha, hget b hb, hget c hc, hget d hd, GetNormal_single,
    remappedNormal]

theorem uvCalls_no_channel (cfg : Config) (mesh : MNMesh) (hM : ∀ mp, mesh.M mp = none) :
    uvCalls cfg mesh = [] := by
  unfold uvCalls
  generalize texMaps cfg = l
  induction l with
  | nil => rfl
  | cons t rest ih => simp [uvChannelCalls, hM, ih]

/-- C14. For one quad over four points (its four distinct point indices `a, b, c, d`),
smoothing group 1, material slot 0, no explicit normal, no channel, no selection weight
and no material, with a host whose face normal is a unit vector that `Normalize` leaves
unchanged, the conversion makes exactly these calls: the node creation and node-name
marshalling, `AddNewPart(1, 4, 4)`, the position point attribute with the 4 remapped
points (uploaded with the index buffer `d, c, b, a` and the face count `4`), the
smoothing-group attribute `[1]`, the material-id attribute `[0]`, the normal vertex
attribute with 4 normals all equal to the remapped face normal, then the transform detail
attributes of the host node if one is supplied, `SetParentTransform` and
`FinalizeInputGeometry`; no material-path, UV, color, alpha, illumination or
soft-selection call is made. -/
theorem C14_one_quad_scenario (cfg : Config) (host : HostFns) (SourceNode : Option INode)
    (rand1 rand2 : Nat) (p0 p1 p2 p3 : Point3) (a b c d : Nat) (InputNodeName : String)
    (NodeTransform : List ℚ) (MaxNode : Option INode)
    (hnd : [a, b, c, d].Nodup) (ha : a < 4) (hb : b < 4) (hc : c < 4) (hd : d < 4)
    (hmat : SourceNode = none ∨ ∃ node, SourceNode = some node ∧ node.mtl = none)
    (hunit : host.Normalize (host.GetFaceNormal 0) = host.GetFaceNormal 0) :
    BuildPolyGeometryForInputNode cfg host SourceNode rand1 rand2
        (quadOver p0 p1 p2 p3 a b c d) InputNodeName NodeTransform MaxNode
      = [.CreateInputNode (InputNodeName ++ "_" ++ toString rand1 ++ toString rand2),
         .MarshalNodeNameDetailAttribute,
         .AddNewPart 1 4 4,
         .AddNewPointAttribute 4 3 cfg.HEMAX_POSITION_ATTRIBUTE,
         .SendPointAttributeData
            (([p0, p1, p2, p3].map (fun p =>
              [p.x * cfg.ScaleConversion, p.z * cfg.ScaleConversion,
               -(p.y * cfg.ScaleConversion)])).flatten.map some)
            [some d, some c, some b, some a] [some 4] 1 4 4 cfg.HEMAX_POSITION_ATTRIBUTE,
         .AddNewPrimitiveIntAttribute 1 1 cfg.HEMAX_SMOOTHING_GROUP_ATTRIBUTE,
         .SendIntAttributeData cfg.HEMAX_SMOOTHING_GROUP_ATTRIBUTE [some 1] 1,
         .AddNewPrimitiveIntAttribute 1 1 cfg.HEMAX_MATERIAL_ID_ATTRIBUTE,
         .SendIntAttributeData cfg.HEMAX_MATERIAL_ID_ATTRIBUTE [some 0] 1,
         .AddNewVertexAttribute 4 3 cfg.HEMAX_NORMAL_ATTRIBUTE,
         .SendFloatAttributeData cfg.HEMAX_NORMAL_ATTRIBUTE
            ((List.replicate 4 (remappedNormal (host.GetFaceNormal 0))).flatten.map some) 4]
        ++ transformCalls cfg MaxNode
        ++ [.SetParentTransform NodeTransform, .FinalizeInputGeometry] := by
  have hM : ∀ mp, (quadOver p0 p1 p2 p3 a b c d).M mp = none := fun _ => rfl
  have hF : FaceCount (quadOver p0 p1 p2 p3 a b c d) = 1 := rfl
  have hV : VertCount (quadOver p0 p1 p2 p3 a b c d) = 4 := rfl
  have hI : VertIndexCount (quadOver p0 p1 p2 p3 a b c d) = 4 := rfl
  have hmp : materialPathCalls cfg SourceNode (quadOver p0 p1 p2 p3 a b c d) = [] := by
    have h2 := FaceMaterialNames_no_material SourceNode (quadOver p0 p1 p2 p3 a b c d) hmat
    unfold materialPathCalls
    rw [h2.1, h2.2]
    simp
  have hN : NormalArray host (quadOver p0 p1 p2 p3 a b c d)
      = (List.replicate 4 (remappedNormal (host.GetFaceNormal 0))).flatten := by
    have h1 : NormalArray host (quadOver p0 p1 p2 p3 a b c d)
        = synthesisedNormals host (quadOver p0 p1 p2 p3 a b c d) := rfl
    rw [h1, synthesised_quad host p0 p1 p2 p3 a b c d hnd ha hb hc hd, hunit]
  have hP : PointArray cfg.ScaleConversion (quadOver p0 p1 p2 p3 a b c d)
      = ([p0, p1, p2, p3].map (fun p =>
          [p.x * cfg.ScaleConversion, p.z * cfg.ScaleConversion,
           -(p.y * cfg.ScaleConversion)])).flatten.map some := by
    rw [PointArray_eq]
    simp [quadOver, remapPosition, Point3.xyz]
  have hX : VertIndexArray (quadOver p0 p1 p2 p3 a b c d)
      = [some d, some c, some b, some a] := by
    rw [VertIndexArray_eq]
    rfl
  have hFC : FaceCountArray (quadOver p0 p1 p2 p3 a b c d) = [some 4] := by
    rw [FaceCountArray_eq]
    rfl
  have hSG : SmoothingGroupArray (quadOver p0 p1 p2 p3 a b c d) = [some 1] := by
    simp [SmoothingGroupArray, FaceCount, MNMesh.FNum, applyStores, alloc, store,
      List.range_succ, quadOver, MNMesh.F, dwordToInt]
  have hMI : MaterialIDArray (quadOver p0 p1 p2 p3 a b c d) = [some 0] := by
    simp [MaterialIDArray, FaceCount, MNMesh.FNum, applyStores, alloc, store,
      List.range_succ, quadOver, MNMesh.F]
  have hUV := uvCalls_no_channel cfg (quadOver p0 p1 p2 p3 a b c d) hM
  have hIl : illuminationCalls cfg (quadOver p0 p1 p2 p3 a b c d) = [] := by
    simp [illuminationCalls, IlluminationArray, illuminationChannel_absent cfg _ (hM _)]
  have hAl : alphaCalls cfg (quadOver p0 p1 p2 p3 a b c d) = [] := by
    simp [alphaCalls, AlphaArray, alphaChannel_absent cfg _ (hM _)]
  have hCd : cdCalls cfg (quadOver p0 p1 p2 p3 a b c d) = [] := by
    simp [cdCalls, CdArray, colorChannel_absent cfg _ (hM _)]
  have hSS : softSelectionCalls cfg (quadOver p0 p1 p2 p3 a b c d) = [] := rfl
  unfold BuildPolyGeometryForInputNode normalCalls
  rw [hmp, hUV, hIl, hAl, hCd, hSS, hN, hP, hX, hFC, hSG, hMI, hF, hV, hI]
  simp

/-- C14 at the unit square listed as `0, 1, 2, 3`, with unit scale 1 and face normal
`(0, 0, 1)`, without source node or host node. -/
theorem C14_one_quad_scenario_witness :
    [0, 1, 2, 3].Nodup
    ∧ ((none : Option INode) = none
        ∨ ∃ node, (none : Option INode) = some node ∧ node.mtl = none)
    ∧ exampleHost.Normalize (exampleHost.GetFaceNormal 0) = exampleHost.GetFaceNormal 0
    ∧ BuildPolyGeometryForInputNode exampleConfig exampleHost none 7 8
        (quadOver ⟨0, 0, 0⟩ ⟨1, 0, 0⟩ ⟨1, 1, 0⟩ ⟨0, 1, 0⟩ 0 1 2 3) "input" [] none
      = [.CreateInputNode "input_78",
         .MarshalNodeNameDetailAttribute,
         .AddNewPart 1 4 4,
         .AddNewPointAttribute 4 3 "P",
         .SendPointAttributeData
            [some 0, some 0, some 0, some 1, some 0, some 0, some 1, some 0, some (-1),
             some 0, some 0, some (-1)]
            [some 3, some 2, some 1, some 0] [some 4] 1 4 4 "P",
         .AddNewPrimitiveIntAttribute 1 1 "smoothing_group",
         .SendIntAttributeData "smoothing_group" [some 1] 1,
         .AddNewPrimitiveIntAttribute 1 1 "material_id",
         .SendIntAttributeData "material_id" [some 0] 1,
         .AddNewVertexAttribute 4 3 "N",
         .SendFloatAttributeData "N"
            [some 0, some 1, some 0, some 0, some 1, some 0, some 0, some 1, some 0,
             some 0, some 1, some 0] 4,
         .SetParentTransform [],
         .FinalizeInputGeometry] := by
  refine ⟨by decide, Or.inl rfl, rfl, ?_⟩
  rw [C14_one_quad_scenario exampleConfig exampleHost none 7 8 ⟨0, 0, 0⟩ ⟨1, 0, 0⟩
    ⟨1, 1, 0⟩ ⟨0, 1, 0⟩ 0 1 2 3 "input" [] none (by decide) (by decide) (by decide)
    (by decide) (by decide) (Or.inl rfl) rfl]
  have hs : "input" ++ "_" ++ toString 7 ++ toString 8 = "input_78" := by decide
  rw [hs]
  norm_num [exampleConfig, exampleHost, remappedNormal, transformCalls]
  rfl

/-! ## Names of the UV channels -/

theorem lookup_mapInsert (m : List (Nat × Nat)) (k x V : Nat) :
    (mapInsert m k x).lookup V = (m.lookup V).or (if V = k then some x else none) := by
  unfold mapInsert
  by_cases hk : (m.lookup k).isSome = true
  · rw [if_pos hk]
    by_cases hV : V = k
    · subst hV
      cases h : m.lookup V with
      | none => simp [h] at hk
      | some y => simp
    · simp [hV]
  · rw [if_neg hk, List.lookup_append]
    by_cases hV : V = k
    · simp [hV, List.lookup]
    · have hne : (V == k) = false := by simpa using hV
      simp [hV, List.lookup, hne]

theorem lookup_mapIncr (m : List (Nat × Nat)) (k V : Nat) :
    (mapIncr m k).lookup V
      = if V = k then (m.lookup V).map (fun n => n + 1) else m.lookup V := by
  unfold mapIncr
  induction m with
  | nil => simp
  | cons kv rest ih =>
    obtain ⟨a, n⟩ := kv
    have hstep : List.map (fun kv : Nat × Nat => if kv.1 = k then (kv.1, kv.2 + 1) else kv)
        ((a, n) :: rest)
        = (if a = k then (a, n + 1) else (a, n))
          :: List.map (fun kv : Nat × Nat => if kv.1 = k then (kv.1, kv.2 + 1) else kv) rest :=
      rfl
    rw [hstep]
    by_cases hak : a = k
    · rw [if_pos hak]
      by_cases hVa : V = a
      · have hVk : V = k := hVa.trans hak
        have hb : (V == a) = true := by simpa using hVa
        simp only [List.lookup, hb, if_pos hVk, Option.map_some']
      · have hb : (V == a) = false := by simpa using hVa
        simp only [List.lookup, hb, ih]
    · rw [if_neg hak]
      by_cases hVa : V = a
      · have hVk : ¬ V = k := fun h => hak (hVa.symm.trans h)
        have hb : (V == a) = true := by simpa using hVa
        simp only [List.lookup, hb, if_neg hVk]
      · have hb : (V == a) = false := by simpa using hVa
        simp only [List.lookup, hb, ih]

theorem lookup_accumulate (host : HostFns) (mesh : MNMesh) (V : Nat) (l : List (Nat × Nat)) :
    ∀ st : List (List VertexNormalNode) × List (Nat × Nat),
      (l.foldl (fun st fv => accumulateBody host mesh st fv.1 fv.2) st).2.lookup V
        = (st.2.lookup V).or
            (if l.any (isZeroMaskCornerAt mesh V) = true then some 0 else none) := by
  induction l with
  | nil => intro st; simp
  | cons fv rest ih =>
    intro st
    rw [List.foldl_cons, ih]
    have hstep : (accumulateBody host mesh st fv.1 fv.2).2.lookup V
        = (st.2.lookup V).or
            (if isZeroMaskCornerAt mesh V fv = true then some 0 else none) := by
      unfold accumulateBody isZeroMaskCornerAt
      by_cases h0 : (mesh.F fv.1).smGroup = 0
      · simp only [h0, if_true, lookup_mapInsert, decide_True, Bool.true_and,
          decide_eq_true_eq]
        by_cases hV : V = (mesh.F fv.1).vtxAt fv.2
        · simp [hV]
        · have hV2 : ¬ (mesh.F fv.1).vtxAt fv.2 = V := fun h => hV h.symm
          simp [hV, hV2]
      · simp [h0]
    rw [hstep, List.any_cons]
    cases st.2.lookup V with
    | some y => simp
    | none =>
      cases isZeroMaskCornerAt mesh V fv <;> rfl

/-- After the accumulation loop `NoSGTable` holds a counter `0` for exactly the vertices
that have a zero-mask corner. -/
theorem lookup_NoSGTable (host : HostFns) (mesh : MNMesh) (V : Nat) :
    (accumulateNormals host mesh).2.lookup V
      = if (cornerOrder mesh).any (isZeroMaskCornerAt mesh V) = true then some 0 else none := by
  unfold accumulateNormals
  rw [forCorners_eq_foldl, lookup_accumulate]
  simp

theorem lookup_readBack (host : HostFns) (mesh : MNMesh)
    (VertexNormals : List (List VertexNormalNode)) (V : Nat) (l : List (Nat × Nat)) :
    ∀ st : List (Nat × Nat) × List ℚ,
      (l.foldl (fun st fv => readBackBody host mesh VertexNormals st fv.1 fv.2) st).1.lookup V
        = (st.1.lookup V).map (fun n => n + l.countP (isZeroMaskCornerAt mesh V)) := by
  induction l with
  | nil => intro st; simp
  | cons fv rest ih =>
    intro st
    rw [List.foldl_cons, ih]
    have hstep : (readBackBody host mesh VertexNormals st fv.1 fv.2).1.lookup V
        = (st.1.lookup V).map
            (fun n => n + if isZeroMaskCornerAt mesh V fv = true then 1 else 0) := by
      unfold readBackBody isZeroMaskCornerAt
      by_cases h0 : (mesh.F fv.1).smGroup = 0
      · simp only [h0, if_true, lookup_mapIncr, decide_True, Bool.true_and,
          decide_eq_true_eq]
        by_cases hV : V = (mesh.F fv.1).vtxAt fv.2
        · simp [hV]
        · have hV2 : ¬ (mesh.F fv.1).vtxAt fv.2 = V := fun h => hV h.symm
          simp [hV, hV2]
      · simp [h0]
    rw [hstep, List.countP_cons, Option.map_map]
    congr 1
    funext n
    simp only [Function.comp]
    omega

/-- The counter of vertex `V` after `k` corners of the read-back loop: present from the
start when `V` has a zero-mask corner, and then equal to the number of zero-mask corners at
`V` visited so far. -/
theorem lookup_readBackState (host : HostFns) (mesh : MNMesh) (k V : Nat) :
    (readBackState host mesh k).1.lookup V
      = if (cornerOrder mesh).any (isZeroMaskCornerAt mesh V) = true then
          some (zeroMaskVisits mesh V k)
        else none := by
  unfold readBackState zeroMaskVisits
  rw [lookup_readBack, lookup_NoSGTable]
  split_ifs <;> simp

theorem zeroMaskVisits_eq_zero (mesh : MNMesh) (V k : Nat)
    (h : ¬ (cornerOrder mesh).any (isZeroMaskCornerAt mesh V) = true) :
    zeroMaskVisits mesh V k = 0 := by
  unfold zeroMaskVisits
  rw [List.countP_eq_zero]
  intro fv hfv hz
  apply h
  rw [List.any_eq_true]
  exact ⟨fv, List.mem_of_mem_take hfv, hz⟩

theorem readBackState_succ (host : HostFns) (mesh : MNMesh) (k : Nat) (fv : Nat × Nat)
    (hk : (cornerOrder mesh)[k]? = some fv) :
    readBackState host mesh (k + 1)
      = readBackBody host mesh (accumulateNormals host mesh).1 (readBackState host mesh k)
          fv.1 fv.2 := by
  unfold readBackState
  rw [List.take_succ, hk, List.foldl_append]
  rfl

/-- Walking `n` steps along `next` and reading: the normal of the head of what is left of
the chain after `n` nodes are passed, which is node number `n` of the chain. -/
theorem walkNorm_eq (chain : List VertexNormalNode) (n : Nat) :
    walkNorm chain n
      = (((chain.drop n).head?).map (fun b => b.norm)).getD ⟨0, 0, 0⟩ := by
  unfold walkNorm
  cases (chain.drop n).head? <;> rfl

/-- C15. In the synthesis branch, with the corners visited face by face and within a
face from `deg - 1` down to `0`: the counter of every vertex starts at 0; after `k` corners
it equals the number of zero-mask corners at that vertex among those `k`; a corner of a
zero-mask face at vertex `V` finds the counter of `V`, say `n` (as many as zero-mask
corners at `V` were visited before, so 0 on the first visit), passes exactly `n` nodes of
the accumulation list of `V` and emits the normal of the node it then stands on, node
number `n` of the list, and adds one to the counter of `V`; a corner of a face with a
non-zero mask leaves every counter as it is; at the end the counter of `V` is the total
number of zero-mask corners at `V`, and the normals emitted are `NormalArray` of the
synthesis branch. The walk itself reads the head after 0 steps, and each further step moves
to `next`. -/
theorem C15_zero_mask_counter (host : HostFns) (mesh : MNMesh) :
    (∀ V, ((readBackState host mesh 0).1.lookup V).getD 0 = 0)
    ∧ (∀ k V, ((readBackState host mesh k).1.lookup V).getD 0 = zeroMaskVisits mesh V k)
    ∧ (∀ k fv, (cornerOrder mesh)[k]? = some fv → (mesh.F fv.1).smGroup = 0 →
        (readBackState host mesh k).1.lookup ((mesh.F fv.1).vtxAt fv.2)
            = some (zeroMaskVisits mesh ((mesh.F fv.1).vtxAt fv.2) k)
        ∧ (readBackState host mesh (k + 1)).2
            = (readBackState host mesh k).2
              ++ remappedNormal (host.Normalize
                  (walkNorm ((accumulateNormals host mesh).1.getD ((mesh.F fv.1).vtxAt fv.2) [])
                    (zeroMaskVisits mesh ((mesh.F fv.1).vtxAt fv.2) k)))
        ∧ (readBackState host mesh (k + 1)).2
            = (readBackState host mesh k).2
              ++ remappedNormal (host.Normalize
                  ((((((accumulateNormals host mesh).1.getD ((mesh.F fv.1).vtxAt fv.2) []).drop
                        (zeroMaskVisits mesh ((mesh.F fv.1).vtxAt fv.2) k)).head?).map
                      (fun b => b.norm)).getD ⟨0, 0, 0⟩))
        ∧ (∀ b,
            ((accumulateNormals host mesh).1.getD ((mesh.F fv.1).vtxAt fv.2) [])[
                zeroMaskVisits mesh ((mesh.F fv.1).vtxAt fv.2) k]? = some b →
            (readBackState host mesh (k + 1)).2
              = (readBackState host mesh k).2 ++ remappedNormal (host.Normalize b.norm))
        ∧ (readBackState host mesh (k + 1)).1
            = mapIncr (readBackState host mesh k).1 ((mesh.F fv.1).vtxAt fv.2)
        ∧ zeroMaskVisits mesh ((mesh.F fv.1).vtxAt fv.2) (k + 1)
            = zeroMaskVisits mesh ((mesh.F fv.1).vtxAt fv.2) k + 1)
    ∧ (∀ k fv, (cornerOrder mesh)[k]? = some fv → (mesh.F fv.1).smGroup ≠ 0 →
        (readBackState host mesh (k + 1)).1 = (readBackState host mesh k).1)
    ∧ (∀ V, ((readBackState host mesh (cornerOrder mesh).length).1.lookup V).getD 0
        = (cornerOrder mesh).countP (isZeroMaskCornerAt mesh V))
    ∧ (readBackState host mesh (cornerOrder mesh).length).2 = synthesisedNormals host mesh
    ∧ (∀ (b : VertexNormalNode) (rest : List VertexNormalNode),
        walkNorm (b :: rest) 0 = b.norm)
    ∧ (∀ (b : VertexNormalNode) (rest : List VertexNormalNode) (n : Nat),
        walkNorm (b :: rest) (n + 1) = walkNorm rest n)
    ∧ (∀ (chain : List VertexNormalNode) (n : Nat) (b : VertexNormalNode),
        chain[n]? = some b → walkNorm chain n = b.norm) := by
  have hcount : ∀ k V, ((readBackState host mesh k).1.lookup V).getD 0
      = zeroMaskVisits mesh V k := by
    intro k V
    rw [lookup_readBackState]
    by_cases h : (cornerOrder mesh).any (isZeroMaskCornerAt mesh V) = true
    · simp [h]
    · simp [h, zeroMaskVisits_eq_zero mesh V k h]
  have hnth : ∀ (chain : List VertexNormalNode) (n : Nat) (b : VertexNormalNode),
      chain[n]? = some b → walkNorm chain n = b.norm := by
    intro chain n b hb
    rw [walkNorm_eq, List.head?_drop, hb]
    rfl
  refine ⟨?_, hcount, ?_, ?_, ?_, ?_, ?_, ?_, hnth⟩
  · intro V
    rw [hcount]
    simp [zeroMaskVisits]
  · intro k fv hk h0
    have hmem : fv ∈ cornerOrder mesh := List.getElem?_mem hk
    have hany : (cornerOrder mesh).any
        (isZeroMaskCornerAt mesh ((mesh.F fv.1).vtxAt fv.2)) = true := by
      rw [List.any_eq_true]
      exact ⟨fv, hmem, by simp [isZeroMaskCornerAt, h0]⟩
    have hlook := lookup_readBackState host mesh k ((mesh.F fv.1).vtxAt fv.2)
    rw [if_pos hany] at hlook
    have hsucc := readBackState_succ host mesh k fv hk
    have hemit : (readBackState host mesh (k + 1)).2
        = (readBackState host mesh k).2
          ++ remappedNormal (host.Normalize
              (walkNorm ((accumulateNormals host mesh).1.getD ((mesh.F fv.1).vtxAt fv.2) [])
                (zeroMaskVisits mesh ((mesh.F fv.1).vtxAt fv.2) k))) := by
      rw [hsucc]
      simp [readBackBody, h0, hlook, remappedNormal]
    refine ⟨hlook, hemit, ?_, ?_, ?_, ?_⟩
    · rw [hemit, walkNorm_eq]
    · intro b hb
      rw [hemit, hnth _ _ b hb]
    · rw [hsucc]
      simp [readBackBody, h0]
    · unfold zeroMaskVisits
      rw [List.take_succ, hk]
      simp [List.countP_append, isZeroMaskCornerAt, h0]
  · intro k fv hk h0
    rw [readBackState_succ host mesh k fv hk]
    simp [readBackBody, h0]
  · intro V
    rw [hcount]
    simp [zeroMaskVisits]
  · unfold readBackState synthesisedNormals
    rw [List.take_length, forCorners_eq_foldl]
  · intro b rest
    rfl
  · intro b rest n
    rfl

/-- The accumulation lists of two zero-mask triangles sharing points 0 and 2, face 0 with
normal `(0, 0, 1)` and face 1 with normal `(1, 0, 0)`: the shared points hold the normal of
face 0 and then the normal of face 1. -/
theorem accumulateNormals_twoNormalsHost :
    (accumulateNormals twoNormalsHost twoUnsmoothedTriangles).1
      = [[⟨⟨0, 0, 1⟩, 0, true⟩, ⟨⟨1, 0, 0⟩, 0, true⟩], [⟨⟨0, 0, 1⟩, 0, true⟩],
         [⟨⟨0, 0, 1⟩, 0, true⟩, ⟨⟨1, 0, 0⟩, 0, true⟩], [⟨⟨1, 0, 0⟩, 0, true⟩],
         VertexNormal.fresh, VertexNormal.fresh] := by
  have hco : cornerOrder twoUnsmoothedTriangles
      = [(0, 2), (0, 1), (0, 0), (1, 2), (1, 1), (1, 0)] := by decide
  have hf : freshVertexNormals twoUnsmoothedTriangles
      = List.replicate 6 VertexNormal.fresh := by decide
  have hF0 : twoUnsmoothedTriangles.F 0 = ⟨3, [0, 1, 2], 0, 0⟩ := by decide
  have hF1 : twoUnsmoothedTriangles.F 1 = ⟨3, [0, 2, 3], 0, 0⟩ := by decide
  unfold accumulateNormals
  rw [forCorners_eq_foldl, hco, hf]
  simp [accumulateBody, hF0, hF1, MNFace.vtxAt, twoNormalsHost, VertexNormal.fresh,
    VertexNormal.AddNormal, Point3.add, List.replicate]
  rfl

/-- C15 at two zero-mask triangles sharing points 0 and 2, face 0 with normal `(0, 0, 1)`
and face 1 with normal `(1, 0, 0)`: the fifth corner visited is corner 1 of face 1, at
point 2, which was visited once before; its counter reads 1; the accumulation list of
point 2 holds the normal of face 0 and then the normal of face 1, and the corner emits
the second one, `(1, 0, 0)` remapped, not the first; the counter of point 2 ends at 2, and
the six normals emitted are three times the first normal and three times the second. -/
theorem C15_zero_mask_counter_witness :
    (cornerOrder twoUnsmoothedTriangles)[4]? = some (1, 1)
    ∧ (twoUnsmoothedTriangles.F 1).smGroup = 0
    ∧ (twoUnsmoothedTriangles.F 1).vtxAt 1 = 2
    ∧ zeroMaskVisits twoUnsmoothedTriangles 2 4 = 1
    ∧ (accumulateNormals twoNormalsHost twoUnsmoothedTriangles).1.getD 2 []
        = [⟨⟨0, 0, 1⟩, 0, true⟩, ⟨⟨1, 0, 0⟩, 0, true⟩]
    ∧ (readBackState twoNormalsHost twoUnsmoothedTriangles 4).1.lookup
          ((twoUnsmoothedTriangles.F (1, 1).1).vtxAt (1, 1).2)
        = some (zeroMaskVisits twoUnsmoothedTriangles
            ((twoUnsmoothedTriangles.F (1, 1).1).vtxAt (1, 1).2) 4)
    ∧ (readBackState twoNormalsHost twoUnsmoothedTriangles (4 + 1)).2
        = (readBackState twoNormalsHost twoUnsmoothedTriangles 4).2
          ++ remappedNormal (twoNormalsHost.Normalize
              (⟨⟨1, 0, 0⟩, 0, true⟩ : VertexNormalNode).norm)
    ∧ remappedNormal (twoNormalsHost.Normalize (⟨⟨1, 0, 0⟩, 0, true⟩ : VertexNormalNode).norm)
        = [1, 0, 0]
    ∧ synthesisedNormals twoNormalsHost twoUnsmoothedTriangles
        = [0, 1, 0, 0, 1, 0, 0, 1, 0, 1, 0, 0, 1, 0, 0, 1, 0, 0]
    ∧ ((readBackState twoNormalsHost twoUnsmoothedTriangles
          (cornerOrder twoUnsmoothedTriangles).length).1.lookup 2).getD 0 = 2 := by
  have h := (C15_zero_mask_counter twoNormalsHost twoUnsmoothedTriangles).2.2.1 4 (1, 1)
    (by decide) (by decide)
  have h2 := (C15_zero_mask_counter twoNormalsHost twoUnsmoothedTriangles).2.2.2.2.1 2
  have h3 := (C15_zero_mask_counter twoNormalsHost twoUnsmoothedTriangles).2.2.2.2.2.1
  have hchain : (accumulateNormals twoNormalsHost twoUnsmoothedTriangles).1.getD 2 []
      = [⟨⟨0, 0, 1⟩, 0, true⟩, ⟨⟨1, 0, 0⟩, 0, true⟩] := by
    rw [accumulateNormals_twoNormalsHost]
    rfl
  refine ⟨by decide, by decide, by decide, by decide, hchain, h.1,
    h.2.2.2.1 ⟨⟨1, 0, 0⟩, 0, true⟩ (by rw [accumulateNormals_twoNormalsHost]; decide),
    by decide, ?_, ?_⟩
  · rw [← h3]
    unfold readBackState
    rw [accumulateNormals_twoNormalsHost]
    decide
  · rw [h2]
    decide

end HEMAX
